import Mathlib

/-!
Verification of the property-ledger core of the PawPerties repository
(`blockchain.py`, `cid_manager.py`).

The Python classes `Block` and `PropertyBlockchain` are shallowly embedded:

* Python dicts become association lists (`dlookup` / `dinsert` reproduce
  lookup, membership, and insertion-order-preserving assignment).
* Mutation of `self` becomes explicit state passing.  A Python method that
  can both mutate `self` and raise `ValueError` is embedded as a function
  returning the post state together with an `Except String` result, so that
  the state reached when an exception escapes is preserved faithfully.
* The SHA-256 digest used by `Block.calculate_hash` is kept abstract as a
  parameter `H : BlockContent → String`; theorems that depend on the digest
  distinguishing two inputs carry that as an explicit no-collision
  hypothesis.  `testH` is a concrete instantiation used by witnesses.
* Python `float` monetary arithmetic is idealised as exact rational
  arithmetic (`ℚ`); the percentage constants `0.02` / `0.05` become
  `2/100` / `5/100`.
* `datetime.now()` timestamps and the UUID-based fresh customer keys become
  explicit oracle arguments (`now`, `freshKey`); the only property the
  Python generation loop guarantees — that a fresh key is not already a key
  of `customer_key_to_owner` — appears as a hypothesis where needed.
-/

namespace PawProp

/-! ## Python string primitives -/

/-- Characters treated as whitespace by Python `str.strip()` / `str.split()`. -/
def isPySpace (c : Char) : Bool :=
  c.toNat = 32 || c.toNat = 9 || c.toNat = 10 || c.toNat = 13 || c.toNat = 11 || c.toNat = 12

/-- Python `s.strip()`. -/
def pyStrip (s : String) : String :=
  (((s.toList.dropWhile isPySpace).reverse.dropWhile isPySpace).reverse).asString

/-- Python `s.lower()` (ASCII range, which is all the repository uses). -/
def pyLower (s : String) : String :=
  (s.toList.map Char.toLower).asString

/-- Python `s.upper()` (ASCII range). -/
def pyUpper (s : String) : String :=
  (s.toList.map Char.toUpper).asString

/-- Python `s.replace(" ", "").replace("-", "")`, the Aadhar cleaning step. -/
def removeSpaceDash (s : String) : String :=
  (s.toList.filter (fun c => !(c = ' ' || c = '-'))).asString

/-! ## Python dicts as insertion-ordered association lists -/

/-- Python `d[k]` / `d.get(k)`: first binding of `k`. -/
def dlookup {α : Type} : List (String × α) → String → Option α
  | [], _ => none
  | (k, v) :: t, k' => if k = k' then some v else dlookup t k'

/-- Python `d[k] = v`: overwrite in place if present, else append (dicts
preserve insertion order). -/
def dinsert {α : Type} : List (String × α) → String → α → List (String × α)
  | [], k, v => [(k, v)]
  | (k0, v0) :: t, k, v => if k0 = k then (k, v) :: t else (k0, v0) :: dinsert t k v

/-- Python `k in d`. -/
def dmem {α : Type} (m : List (String × α)) (k : String) : Bool :=
  (dlookup m k).isSome

/-! ## Data model: `Block` and the per-kind payload dicts -/

/-- The `data` dict written by `add_property` (`{"type": "registration", ...}`). -/
structure RegistrationData where
  owner : String
  customer_key : String
  aadhar_no : String
  pan_no : String
  address : String
  pincode : String
  value : ℚ
  survey_no : String
  rtc_no : String
  village : String
  taluk : String
  district : String
  state : String
  land_area : String
  land_type : String
  description : String
  additional_info : List (String × String)
deriving DecidableEq, Repr

/-- The `data` dict written by `transfer_property` (`{"type": "transfer", ...}`). -/
structure TransferData where
  transfer_reason : String
  previous_owner : String
  previous_owner_aadhar : String
  previous_customer_key : String
  new_owner : String
  new_owner_customer_key : String
  new_owner_aadhar : String
  new_owner_pan : String
  transfer_value : ℚ
  new_property_value : ℚ
  address : String
  pincode : String
  survey_no : String
  rtc_no : String
  stamp_duty_paid : ℚ
  registration_fee : ℚ
  additional_info : List (String × String)
deriving DecidableEq, Repr

/-- The `type` discriminator of a block's `data` dict. -/
inductive BlockData where
  | genesis (message : String)
  | registration (r : RegistrationData)
  | transfer (t : TransferData)
deriving DecidableEq, Repr

/-- True exactly for `{"type": "registration"}` payloads. -/
def BlockData.isRegistration : BlockData → Bool
  | .registration _ => true
  | _ => false

/-- The five identity-bearing fields hashed by `Block.calculate_hash`. -/
structure BlockContent where
  index : Nat
  timestamp : String
  data : BlockData
  previous_hash : String
  property_key : String
deriving DecidableEq, Repr

/-- A `Block`: its five content fields plus the stored `hash`. -/
structure Block where
  index : Nat
  timestamp : String
  data : BlockData
  previous_hash : String
  property_key : String
  hash : String
deriving DecidableEq, Repr

/-- The content of a block, as re-serialized by `calculate_hash`. -/
def Block.content (b : Block) : BlockContent :=
  ⟨b.index, b.timestamp, b.data, b.previous_hash, b.property_key⟩

/-- `Block.__init__`: stores `self.hash = self.calculate_hash()`. -/
def mkBlock (H : BlockContent → String) (index : Nat) (timestamp : String)
    (data : BlockData) (previous_hash property_key : String) : Block :=
  { index := index, timestamp := timestamp, data := data,
    previous_hash := previous_hash, property_key := property_key,
    hash := H ⟨index, timestamp, data, previous_hash, property_key⟩ }

/-- `Block.calculate_hash` re-applied to the current field values. -/
def calculate_hash (H : BlockContent → String) (b : Block) : String :=
  H b.content

/-- A concrete executable digest used to instantiate witnesses. -/
def testH (c : BlockContent) : String :=
  String.append "H" (String.append (toString c.index) (String.append "|"
    (String.append c.timestamp (String.append "|"
      (String.append c.previous_hash (String.append "|" c.property_key))))))

/-! ## `PropertyBlockchain` state -/

/-- One entry of `identity_registry`. -/
structure IdentityRecord where
  aadhar : String
  pan : String
  customer_key : String
deriving DecidableEq, Repr

/-- The mutable state of a `PropertyBlockchain` instance. -/
structure PropertyBlockchain where
  chain : List Block
  property_index : List (String × List Nat)
  identity_registry : List (String × IdentityRecord)
  aadhar_to_owner : List (String × String)
  pan_to_owner : List (String × String)
  customer_key_to_owner : List (String × String)
  survey_to_property : List (String × String)
deriving DecidableEq, Repr

/-- `_create_genesis_block`. -/
def genesisBlock (H : BlockContent → String) (ts : String) : Block :=
  mkBlock H 0 ts (.genesis "Property Ledger Genesis Block") "0" "GENESIS"

/-- A freshly constructed ledger holding only the genesis block. -/
def initialState (H : BlockContent → String) (ts : String) : PropertyBlockchain :=
  { chain := [genesisBlock H ts], property_index := [], identity_registry := [],
    aadhar_to_owner := [], pan_to_owner := [], customer_key_to_owner := [],
    survey_to_property := [] }

/-- `get_latest_block` (`self.chain[-1]`; `none` models the IndexError on an
empty chain). -/
def get_latest_block (st : PropertyBlockchain) : Option Block :=
  st.chain.getLast?

/-! ## Identity validation -/

/-- `validate_aadhar`: 12 digits after removing spaces and dashes. -/
def validate_aadhar (aadhar : String) : Bool :=
  let c := removeSpaceDash aadhar
  c.length = 12 && c.toList.all Char.isDigit

/-- Uppercase A–Z test for the PAN shape. -/
def isUpperAZ (c : Char) : Bool :=
  'A' ≤ c && c ≤ 'Z'

/-- `validate_pan`: `^[A-Z]{5}[0-9]{4}[A-Z]{1}$` against `pan.upper()`. -/
def validate_pan (pan : String) : Bool :=
  let u := (pyUpper pan).toList
  u.length = 10 && (u.take 5).all isUpperAZ && ((u.drop 5).take 4).all Char.isDigit
    && (u.drop 9).all isUpperAZ

/-- The four-map update performed when `register_or_validate_identity`
records a brand-new owner. -/
def registeredState (st : PropertyBlockchain) (owner aadhar pan freshKey : String) :
    PropertyBlockchain :=
  { st with
    identity_registry :=
      dinsert st.identity_registry (pyStrip owner)
        ⟨removeSpaceDash aadhar, pyUpper pan, freshKey⟩,
    aadhar_to_owner := dinsert st.aadhar_to_owner (removeSpaceDash aadhar) (pyStrip owner),
    pan_to_owner := dinsert st.pan_to_owner (pyUpper pan) (pyStrip owner),
    customer_key_to_owner := dinsert st.customer_key_to_owner freshKey (pyStrip owner) }

/-- `register_or_validate_identity`.  All of its `raise` statements occur
before its mutations, so an `Except` result (with the input state implicitly
unchanged on error) is faithful.  `freshKey` is the customer key produced by
`_generate_customer_key`. -/
def register_or_validate_identity (st : PropertyBlockchain)
    (owner aadhar pan freshKey : String) : Except String PropertyBlockchain :=
  match dlookup st.identity_registry (pyStrip owner) with
  | some idr =>
    if idr.aadhar ≠ removeSpaceDash aadhar then
      .error "Identity mismatch: owner is already registered with a different Aadhar"
    else if idr.pan ≠ pyUpper pan then
      .error "Identity mismatch: owner is already registered with a different PAN"
    else .ok st
  | none =>
    if (match dlookup st.aadhar_to_owner (removeSpaceDash aadhar) with
        | some existing => decide (existing ≠ pyStrip owner)
        | none => false) then
      .error "Aadhar number is already registered to another owner"
    else if (match dlookup st.pan_to_owner (pyUpper pan) with
        | some existing => decide (existing ≠ pyStrip owner)
        | none => false) then
      .error "PAN number is already registered to another owner"
    else
      .ok (registeredState st owner aadhar pan freshKey)

/-! ## Query operations -/

/-- The list comprehension `[self.chain[idx] for idx in block_indices]`;
`IndexError` models an out-of-range access. -/
def fetchBlocks (chain : List Block) : List Nat → Except String (List Block)
  | [] => .ok []
  | i :: rest =>
    match chain.get? i with
    | none => .error "IndexError"
    | some bk =>
      match fetchBlocks chain rest with
      | .error e => .error e
      | .ok bs => .ok (bk :: bs)

/-- `get_property_history`. -/
def get_property_history (st : PropertyBlockchain) (property_key : String) :
    Except String (List Block) :=
  match dlookup st.property_index property_key with
  | none => .error "Property not found."
  | some ixs => fetchBlocks st.chain ixs

/-- The flattened view returned by `get_property_current_state`. -/
structure CurrentState where
  property_key : String
  owner : String
  customer_key : String
  aadhar_no : String
  pan_no : String
  address : String
  pincode : String
  value : ℚ
  survey_no : String
  rtc_no : String
  village : String
  taluk : String
  district : String
  state : String
  land_area : String
  land_type : String
  description : String
  registered_at : String
  last_updated : String
  total_transfers : Nat
deriving DecidableEq, Repr

/-- The `current_state` dict built from the registration payload (before the
latest-transfer overlay). -/
def regBaseState (property_key : String) (reg : RegistrationData)
    (registered_at last_updated : String) (total_transfers : Nat) : CurrentState :=
  { property_key := property_key, owner := reg.owner,
    customer_key := reg.customer_key, aadhar_no := reg.aadhar_no,
    pan_no := reg.pan_no, address := reg.address, pincode := reg.pincode,
    value := reg.value, survey_no := reg.survey_no, rtc_no := reg.rtc_no,
    village := reg.village, taluk := reg.taluk, district := reg.district,
    state := reg.state, land_area := reg.land_area, land_type := reg.land_type,
    description := reg.description, registered_at := registered_at,
    last_updated := last_updated, total_transfers := total_transfers }

/-- The latest-transfer overlay: new owner identity fields, and the tracked
value when `new_property_value` is truthy (non-zero). -/
def overlayTransfer (base : CurrentState) (t : TransferData) : CurrentState :=
  { base with
    owner := t.new_owner, customer_key := t.new_owner_customer_key,
    aadhar_no := t.new_owner_aadhar, pan_no := t.new_owner_pan,
    value := if t.new_property_value ≠ 0 then t.new_property_value else base.value }

/-- `get_property_current_state`: fold the property's history, overlaying the
latest transfer's new-owner fields.  `KeyError` models dictionary accesses such
as `registration["owner"]` on a payload of the wrong kind; the guard
`if latest_data.get("new_property_value")` means a transfer whose
`new_property_value` is `0` (falsy) does not update the tracked value. -/
def get_property_current_state (st : PropertyBlockchain) (property_key : String) :
    Except String CurrentState :=
  match dlookup st.property_index property_key with
  | none => .error "Property not found."
  | some ixs =>
    match ixs.getLast? with
    | none => .error "IndexError"
    | some latest_index =>
      match st.chain.get? latest_index with
      | none => .error "IndexError"
      | some latest_block =>
        match fetchBlocks st.chain ixs with
        | .error e => .error e
        | .ok history =>
          match history with
          | [] => .error "IndexError"
          | first :: _ =>
            match first.data with
            | .registration reg =>
              if 1 < history.length then
                match history.getLast? with
                | none => .error "IndexError"
                | some lastb =>
                  match lastb.data with
                  | .transfer t =>
                    .ok (overlayTransfer
                      (regBaseState property_key reg first.timestamp
                        latest_block.timestamp (history.length - 1)) t)
                  | _ => .error "KeyError"
              else
                .ok (regBaseState property_key reg first.timestamp
                  latest_block.timestamp (history.length - 1))
            | _ => .error "KeyError"

/-! ## Mutation operations -/

/-- `self.property_index[property_key].append(i)`; callers have already
checked that the key is present. -/
def pindexAppend : List (String × List Nat) → String → Nat → List (String × List Nat)
  | [], _, _ => []
  | p :: t, k, i => (if p.1 = k then (p.1, p.2 ++ [i]) else p) :: pindexAppend t k i

/-- `add_property`.  Returns the post state (faithful even on the error paths,
which in Python leave whatever `register_or_validate_identity` already wrote)
together with the result. -/
def add_property (H : BlockContent → String) (st : PropertyBlockchain)
    (property_key owner address pincode : String) (value : ℚ)
    (aadhar_no pan_no survey_no rtc_no village taluk district state
      land_area land_type description : String)
    (additional_info : List (String × String)) (now freshKey : String) :
    PropertyBlockchain × Except String Block :=
  if dmem st.property_index property_key then
    (st, .error "Property with this key already exists. Use transfer_property() for ownership changes.")
  else if !validate_aadhar aadhar_no then
    (st, .error "Invalid Aadhar number. Must be 12 digits.")
  else if !validate_pan pan_no then
    (st, .error "Invalid PAN number. Must be in format: ABCDE1234F")
  else
    match register_or_validate_identity st owner aadhar_no pan_no freshKey with
    | .error e => (st, .error e)
    | .ok st1 =>
      if dmem st1.survey_to_property (pyStrip survey_no) then
        (st1, .error "Survey number is already registered to another property.")
      else
        match dlookup st1.identity_registry (pyStrip owner) with
        | none => (st1, .error "KeyError")
        | some idr =>
          match get_latest_block st1 with
          | none => (st1, .error "IndexError")
          | some latest =>
            ({ st1 with
                chain := st1.chain ++
                  [mkBlock H st1.chain.length now
                    (.registration
                      { owner := owner, customer_key := idr.customer_key,
                        aadhar_no := removeSpaceDash aadhar_no,
                        pan_no := pyUpper pan_no, address := address,
                        pincode := pincode, value := value,
                        survey_no := survey_no, rtc_no := rtc_no,
                        village := village, taluk := taluk, district := district,
                        state := state, land_area := land_area,
                        land_type := land_type, description := description,
                        additional_info := additional_info })
                    latest.hash property_key],
                property_index :=
                  dinsert st1.property_index property_key [st1.chain.length],
                survey_to_property :=
                  dinsert st1.survey_to_property (pyStrip survey_no) property_key },
              .ok (mkBlock H st1.chain.length now
                (.registration
                  { owner := owner, customer_key := idr.customer_key,
                    aadhar_no := removeSpaceDash aadhar_no,
                    pan_no := pyUpper pan_no, address := address,
                    pincode := pincode, value := value, survey_no := survey_no,
                    rtc_no := rtc_no, village := village, taluk := taluk,
                    district := district, state := state, land_area := land_area,
                    land_type := land_type, description := description,
                    additional_info := additional_info })
                latest.hash property_key))

/-- Python `transfer_value or current_state.get("value")`: `None` and `0.0`
are both falsy and fall back to the tracked value. -/
def pyOrQ (v : Option ℚ) (fallback : ℚ) : ℚ :=
  match v with
  | none => fallback
  | some x => if x = 0 then fallback else x

/-- `if stamp_duty_paid is None: stamp_duty_paid = actual_transfer_value * pct`. -/
def defaultFee (supplied : Option ℚ) (actual pct : ℚ) : ℚ :=
  match supplied with
  | none => actual * pct
  | some s => s

/-- The `data` dict written by `transfer_property`, including the derived
fees (`0.02` / `0.05` defaults) and the compounded `new_property_value`. -/
def mkTransferData (cs : CurrentState) (new_owner_customer_key : String)
    (new_owner new_owner_aadhar new_owner_pan : String) (transfer_value : Option ℚ)
    (transfer_reason : String) (stamp_duty_paid registration_fee : Option ℚ)
    (additional_info : List (String × String)) : TransferData :=
  { transfer_reason := transfer_reason, previous_owner := cs.owner,
    previous_owner_aadhar := cs.aadhar_no, previous_customer_key := cs.customer_key,
    new_owner := new_owner, new_owner_customer_key := new_owner_customer_key,
    new_owner_aadhar := removeSpaceDash new_owner_aadhar,
    new_owner_pan := pyUpper new_owner_pan,
    transfer_value := pyOrQ transfer_value cs.value,
    new_property_value := pyOrQ transfer_value cs.value +
      defaultFee stamp_duty_paid (pyOrQ transfer_value cs.value) (2 / 100) +
      defaultFee registration_fee (pyOrQ transfer_value cs.value) (5 / 100),
    address := cs.address, pincode := cs.pincode, survey_no := cs.survey_no,
    rtc_no := cs.rtc_no,
    stamp_duty_paid := defaultFee stamp_duty_paid (pyOrQ transfer_value cs.value) (2 / 100),
    registration_fee := defaultFee registration_fee (pyOrQ transfer_value cs.value) (5 / 100),
    additional_info := additional_info }

/-- `transfer_property`. -/
def transfer_property (H : BlockContent → String) (st : PropertyBlockchain)
    (property_key new_owner new_owner_aadhar new_owner_pan : String)
    (transfer_value : Option ℚ) (transfer_reason : String)
    (stamp_duty_paid registration_fee : Option ℚ)
    (additional_info : List (String × String)) (now freshKey : String) :
    PropertyBlockchain × Except String Block :=
  if !dmem st.property_index property_key then
    (st, .error "Property not found.")
  else if !validate_aadhar new_owner_aadhar then
    (st, .error "Invalid Aadhar number for new owner. Must be 12 digits.")
  else if !validate_pan new_owner_pan then
    (st, .error "Invalid PAN number for new owner. Must be in format: ABCDE1234F")
  else
    match register_or_validate_identity st new_owner new_owner_aadhar new_owner_pan freshKey with
    | .error e => (st, .error e)
    | .ok st1 =>
      match get_property_current_state st1 property_key with
      | .error e => (st1, .error e)
      | .ok cs =>
        if pyLower (pyStrip cs.owner) = pyLower (pyStrip new_owner) then
          (st1, .error "Cannot transfer property to the same owner.")
        else
          match dlookup st1.identity_registry (pyStrip new_owner) with
          | none => (st1, .error "KeyError")
          | some idr =>
            match get_latest_block st1 with
            | none => (st1, .error "IndexError")
            | some latest =>
              ({ st1 with
                  chain := st1.chain ++
                    [mkBlock H st1.chain.length now
                      (.transfer (mkTransferData cs idr.customer_key new_owner
                        new_owner_aadhar new_owner_pan transfer_value
                        transfer_reason stamp_duty_paid registration_fee
                        additional_info))
                      latest.hash property_key],
                  property_index :=
                    pindexAppend st1.property_index property_key st1.chain.length },
                .ok (mkBlock H st1.chain.length now
                  (.transfer (mkTransferData cs idr.customer_key new_owner
                    new_owner_aadhar new_owner_pan transfer_value transfer_reason
                    stamp_duty_paid registration_fee additional_info))
                  latest.hash property_key))

/-- `inherit_property`: validates the deceased owner against the property's
current owner, then delegates to `transfer_property` with
`transfer_reason = "inheritance"` and the relationship fields folded into
`additional_info`. -/
def inherit_property (H : BlockContent → String) (st : PropertyBlockchain)
    (property_key deceased_owner heir heir_aadhar heir_pan relationship
      legal_heir_certificate_no : String)
    (additional_info : List (String × String)) (now freshKey : String) :
    PropertyBlockchain × Except String Block :=
  if !dmem st.property_index property_key then
    (st, .error "Property not found.")
  else
    match get_property_current_state st property_key with
    | .error e => (st, .error e)
    | .ok cs =>
      if pyLower (pyStrip cs.owner) ≠ pyLower (pyStrip deceased_owner) then
        (st, .error "Deceased owner name mismatch.")
      else
        transfer_property H st property_key heir heir_aadhar heir_pan none
          "inheritance" none none
          (dinsert (dinsert additional_info "relationship" relationship)
            "legal_heir_certificate_no" legal_heir_certificate_no)
          now freshKey

/-! ## Reachable ledger states -/

/-- Ledger states produced from a fresh genesis chain by the public append
operations, including the states left behind when an operation raises.  The
`hfresh` hypotheses record the guarantee of `_generate_customer_key`'s
uniqueness loop. -/
inductive Reachable (H : BlockContent → String) : PropertyBlockchain → Prop
  | init (ts : String) : Reachable H (initialState H ts)
  | add (st : PropertyBlockchain)
      (property_key owner address pincode : String) (value : ℚ)
      (aadhar_no pan_no survey_no rtc_no village taluk district state
        land_area land_type description : String)
      (additional_info : List (String × String)) (now freshKey : String)
      (hst : Reachable H st)
      (hfresh : dlookup st.customer_key_to_owner freshKey = none) :
      Reachable H (add_property H st property_key owner address pincode value
        aadhar_no pan_no survey_no rtc_no village taluk district state
        land_area land_type description additional_info now freshKey).1
  | transfer (st : PropertyBlockchain)
      (property_key new_owner new_owner_aadhar new_owner_pan : String)
      (transfer_value : Option ℚ) (transfer_reason : String)
      (stamp_duty_paid registration_fee : Option ℚ)
      (additional_info : List (String × String)) (now freshKey : String)
      (hst : Reachable H st)
      (hfresh : dlookup st.customer_key_to_owner freshKey = none) :
      Reachable H (transfer_property H st property_key new_owner new_owner_aadhar
        new_owner_pan transfer_value transfer_reason stamp_duty_paid
        registration_fee additional_info now freshKey).1
  | inherit (st : PropertyBlockchain)
      (property_key deceased_owner heir heir_aadhar heir_pan relationship
        legal_heir_certificate_no : String)
      (additional_info : List (String × String)) (now freshKey : String)
      (hst : Reachable H st)
      (hfresh : dlookup st.customer_key_to_owner freshKey = none) :
      Reachable H (inherit_property H st property_key deceased_owner heir
        heir_aadhar heir_pan relationship legal_heir_certificate_no
        additional_info now freshKey).1

/-! ## Chain validation -/

/-- The body of the `for i in range(1, len(self.chain))` loop of
`is_chain_valid`: starting from block `prev`, check each following block's
recomputed hash and back-link, returning the index of the first failure (the
index logged by the Python code), or `none` if every check passes. -/
def chainIssueAux (H : BlockContent → String) : Block → List Block → Nat → Option Nat
  | _, [], _ => none
  | prev, b :: rest, i =>
    if b.hash = H b.content then
      if b.previous_hash = prev.hash then chainIssueAux H b rest (i + 1)
      else some i
    else some i

/-- `is_chain_valid`: `False` on an empty chain, genesis self-verification on
a single-block chain, and the pairwise loop otherwise. -/
def is_chain_valid (H : BlockContent → String) (chain : List Block) : Bool :=
  match chain with
  | [] => false
  | [g] => decide (g.hash = H g.content)
  | g :: rest => (chainIssueAux H g rest 1).isNone

/-- The index reported in the failure log of `is_chain_valid` (`Invalid hash
at block i` / `Invalid chain link at block i`; index 0 for a failed genesis
self-verification), or `none` when validation passes. -/
def first_invalid_index (H : BlockContent → String) (chain : List Block) : Option Nat :=
  match chain with
  | [] => none
  | [g] => if g.hash = H g.content then none else some 0
  | g :: rest => chainIssueAux H g rest 1

/-- Adjacent back-links are consistent (what the loop's second check verifies
on an honestly built chain). -/
def linksOk : List Block → Prop
  | [] => True
  | [_] => True
  | a :: b :: rest => b.previous_hash = a.hash ∧ linksOk (b :: rest)

/-! ## Dictionary lemmas -/

theorem dlookup_dinsert_self {α : Type} (m : List (String × α)) (k : String) (v : α) :
    dlookup (dinsert m k v) k = some v := by
  induction m with
  | nil => simp [dinsert, dlookup]
  | cons p t ih =>
    by_cases h : p.1 = k
    · simp [dinsert, dlookup, h]
    · simp [dinsert, dlookup, h, ih]

theorem dlookup_dinsert_ne {α : Type} (m : List (String × α)) (k k' : String) (v : α)
    (h : k' ≠ k) : dlookup (dinsert m k v) k' = dlookup m k' := by
  have hk : ¬ k = k' := fun hk => h hk.symm
  induction m with
  | nil => simp [dinsert, dlookup, hk]
  | cons p t ih =>
    by_cases hp : p.1 = k
    · subst hp
      simp only [dinsert, if_pos rfl, dlookup, if_neg hk]
    · simp only [dinsert, if_neg hp, dlookup, ih]

theorem dlookup_pindexAppend (m : List (String × List Nat)) (k k' : String) (i : Nat) :
    dlookup (pindexAppend m k i) k' =
      (dlookup m k').map (fun l => if k' = k then l ++ [i] else l) := by
  induction m with
  | nil => simp [pindexAppend, dlookup]
  | cons p t ih =>
    by_cases hp : p.1 = k
    · rw [pindexAppend, if_pos hp]
      by_cases hq : p.1 = k'
      · simp only [dlookup, if_pos hq, Option.map_some']
        rw [if_pos (hq ▸ hp : k' = k)]
      · simp only [dlookup, if_neg hq, ih]
    · rw [pindexAppend, if_neg hp]
      by_cases hq : p.1 = k'
      · simp only [dlookup, if_pos hq, Option.map_some']
        rw [if_neg (fun hkk => hp ((hq ▸ hkk : p.1 = k)))]
      · simp only [dlookup, if_neg hq, ih]

/-! ## linksOk lemmas -/

theorem linksOk_append (l : List Block) (b : Block) (hl : linksOk l)
    (hlast : ∀ last, l.getLast? = some last → b.previous_hash = last.hash) :
    linksOk (l ++ [b]) := by
  induction l with
  | nil => simp [linksOk]
  | cons a t ih =>
    cases t with
    | nil =>
      refine ⟨hlast a rfl, trivial⟩
    | cons c t2 =>
      obtain ⟨h1, h2⟩ := hl
      refine ⟨h1, ih h2 ?_⟩
      intro last hl2
      exact hlast last (by simpa [List.getLast?_cons_cons] using hl2)

theorem linksOk_take (l : List Block) (n : Nat) (hl : linksOk l) :
    linksOk (l.take n) := by
  induction l generalizing n with
  | nil => simp [linksOk]
  | cons a t ih =>
    cases n with
    | zero => simp [linksOk]
    | succ m =>
      cases t with
      | nil => cases m <;> simp [linksOk]
      | cons c t2 =>
        obtain ⟨h1, h2⟩ := hl
        cases m with
        | zero => simp [linksOk]
        | succ m2 =>
          exact ⟨h1, ih (m2 + 1) h2⟩

/-! ## Validation-loop lemmas -/

theorem chainIssueAux_none (H : BlockContent → String) (l : List Block)
    (prev : Block) (k : Nat)
    (hh : ∀ b ∈ l, b.hash = H b.content) (hl : linksOk (prev :: l)) :
    chainIssueAux H prev l k = none := by
  induction l generalizing prev k with
  | nil => rfl
  | cons b rest ih =>
    obtain ⟨h1, h2⟩ := hl
    have hb := hh b (by simp)
    simp only [chainIssueAux, if_pos hb, if_pos h1]
    exact ih b (k + 1) (fun x hx => hh x (List.mem_cons_of_mem _ hx)) h2

theorem chainIssueAux_fail (H : BlockContent → String) (bbad : Block)
    (hbad : bbad.hash ≠ H bbad.content) :
    ∀ (l1 : List Block) (prev : Block) (k : Nat) (l2 : List Block),
      (∀ b ∈ l1, b.hash = H b.content) → linksOk (prev :: l1) →
      chainIssueAux H prev (l1 ++ bbad :: l2) k = some (k + l1.length) := by
  intro l1
  induction l1 with
  | nil =>
    intro prev k l2 _ _
    simp [chainIssueAux, hbad]
  | cons a t ih =>
    intro prev k l2 hh hl
    obtain ⟨h1, h2⟩ := hl
    have ha := hh a (by simp)
    have hrec := ih a (k + 1) l2 (fun x hx => hh x (List.mem_cons_of_mem _ hx)) h2
    simp only [List.cons_append, chainIssueAux, if_pos ha, if_pos h1]
    rw [show t.append (bbad :: l2) = t ++ bbad :: l2 from rfl, hrec]
    congr 1
    simp [List.length_cons]
    omega

/-! ## The ledger invariant -/

/-- Invariants maintained by every state reachable through the public append
operations (including the states left behind by raised errors). -/
structure Invariant (H : BlockContent → String) (st : PropertyBlockchain) : Prop where
  aadhar_cons : ∀ a o, dlookup st.aadhar_to_owner a = some o ↔
    ∃ r, dlookup st.identity_registry o = some r ∧ r.aadhar = a
  pan_cons : ∀ p o, dlookup st.pan_to_owner p = some o ↔
    ∃ r, dlookup st.identity_registry o = some r ∧ r.pan = p
  ck_cons : ∀ c o, dlookup st.customer_key_to_owner c = some o ↔
    ∃ r, dlookup st.identity_registry o = some r ∧ r.customer_key = c
  chain_ne : st.chain ≠ []
  hashes : ∀ b ∈ st.chain, b.hash = H b.content
  links : linksOk st.chain
  reg_in_index : ∀ b ∈ st.chain, b.data.isRegistration = true →
    (dlookup st.property_index b.property_key).isSome
  reg_unique : List.Pairwise (fun b1 b2 => b1.data.isRegistration = true →
    b2.data.isRegistration = true → b1.property_key ≠ b2.property_key) st.chain
  survey_in_map : ∀ b ∈ st.chain, ∀ r, b.data = BlockData.registration r →
    (dlookup st.survey_to_property (pyStrip r.survey_no)).isSome
  survey_unique : List.Pairwise (fun b1 b2 => ∀ r1 r2,
    b1.data = BlockData.registration r1 → b2.data = BlockData.registration r2 →
    pyStrip r1.survey_no ≠ pyStrip r2.survey_no) st.chain
  index_valid : ∀ pk l, dlookup st.property_index pk = some l →
    l ≠ [] ∧ ∀ i ∈ l, i < st.chain.length

theorem invariant_initial (H : BlockContent → String) (ts : String) :
    Invariant H (initialState H ts) := by
  refine ⟨?_, ?_, ?_, ?_, ?_, ?_, ?_, ?_, ?_, ?_, ?_⟩
  · intro a o; simp [initialState, dlookup]
  · intro p o; simp [initialState, dlookup]
  · intro c o; simp [initialState, dlookup]
  · simp [initialState]
  · intro b hb
    simp only [initialState, List.mem_singleton] at hb
    subst hb; rfl
  · exact trivial
  · intro b hb hreg
    simp only [initialState, List.mem_singleton] at hb
    subst hb; simp [genesisBlock, mkBlock, BlockData.isRegistration] at hreg
  · simp [initialState]
  · intro b hb r hr
    simp only [initialState, List.mem_singleton] at hb
    subst hb; simp [genesisBlock, mkBlock] at hr
  · simp [initialState]
  · intro pk l hl; simp [initialState, dlookup] at hl

/-- Generic preservation of a registry/reverse-map consistency relation when a
new owner is registered. -/
theorem cons_preserved (reg : List (String × IdentityRecord))
    (m : List (String × String)) (proj : IdentityRecord → String)
    (hcons : ∀ x o, dlookup m x = some o ↔
      ∃ r, dlookup reg o = some r ∧ proj r = x)
    (norm x0 : String) (newr : IdentityRecord) (hnew : proj newr = x0)
    (hno : dlookup m x0 = none) (hnoreg : dlookup reg norm = none) :
    ∀ x o, dlookup (dinsert m x0 norm) x = some o ↔
      ∃ r, dlookup (dinsert reg norm newr) o = some r ∧ proj r = x := by
  intro x o
  by_cases hx : x = x0
  · subst hx
    rw [dlookup_dinsert_self]
    constructor
    · intro ho
      cases ho
      exact ⟨newr, dlookup_dinsert_self _ _ _, hnew⟩
    · intro ⟨r, hr, hpr⟩
      by_cases hoo : o = norm
      · subst hoo; rfl
      · rw [dlookup_dinsert_ne _ _ _ _ hoo] at hr
        exfalso
        have : dlookup m x = some o := (hcons x o).mpr ⟨r, hr, hpr⟩
        rw [hno] at this; cases this
  · rw [dlookup_dinsert_ne _ _ _ _ hx]
    constructor
    · intro ho
      obtain ⟨r, hr, hpr⟩ := (hcons x o).mp ho
      by_cases hoo : o = norm
      · subst hoo; rw [hnoreg] at hr; cases hr
      · exact ⟨r, by rw [dlookup_dinsert_ne _ _ _ _ hoo]; exact hr, hpr⟩
    · intro ⟨r, hr, hpr⟩
      by_cases hoo : o = norm
      · subst hoo
        rw [dlookup_dinsert_self] at hr
        cases hr
        exact absurd (hnew.symm.trans hpr).symm hx
      · rw [dlookup_dinsert_ne _ _ _ _ hoo] at hr
        exact (hcons x o).mpr ⟨r, hr, hpr⟩

/-- Shape of the state returned by a successful
`register_or_validate_identity`: either untouched (returning owner) or
exactly the four-map registration update. -/
theorem register_ok_shape (st st1 : PropertyBlockchain) (o a p k : String)
    (h : register_or_validate_identity st o a p k = .ok st1) :
    st1 = st ∨
      (dlookup st.identity_registry (pyStrip o) = none ∧
        st1 = registeredState st o a p k) := by
  cases hreg : dlookup st.identity_registry (pyStrip o) with
  | some idr =>
    simp only [register_or_validate_identity, hreg] at h
    split at h
    · cases h
    · split at h
      · cases h
      · cases h; exact Or.inl rfl
  | none =>
    simp only [register_or_validate_identity, hreg] at h
    split at h
    · cases h
    · split at h
      · cases h
      · cases h
        exact Or.inr ⟨rfl, rfl⟩

/-- A successful `register_or_validate_identity` leaves the chain, the
property index and the survey registry untouched. -/
theorem register_ok_frame (st st1 : PropertyBlockchain) (o a p k : String)
    (h : register_or_validate_identity st o a p k = .ok st1) :
    st1.chain = st.chain ∧ st1.property_index = st.property_index ∧
      st1.survey_to_property = st.survey_to_property := by
  rcases register_ok_shape st st1 o a p k h with h1 | ⟨_, h1⟩ <;>
    subst h1 <;> exact ⟨rfl, rfl, rfl⟩

/-- After a successful `register_or_validate_identity`, the owner has an
entry in the identity registry. -/
theorem register_ok_registered (st st1 : PropertyBlockchain) (o a p k : String)
    (h : register_or_validate_identity st o a p k = .ok st1) :
    ∃ idr, dlookup st1.identity_registry (pyStrip o) = some idr := by
  cases hreg : dlookup st.identity_registry (pyStrip o) with
  | some idr =>
    simp only [register_or_validate_identity, hreg] at h
    split at h
    · cases h
    · split at h
      · cases h
      · cases h; exact ⟨idr, hreg⟩
  | none =>
    simp only [register_or_validate_identity, hreg] at h
    split at h
    · cases h
    · split at h
      · cases h
      · cases h
        exact ⟨⟨removeSpaceDash a, pyUpper p, k⟩,
          dlookup_dinsert_self st.identity_registry (pyStrip o) _⟩

/-- `register_or_validate_identity` preserves the invariant (given the
freshness of the generated customer key). -/
theorem register_ok_invariant (H : BlockContent → String)
    (st st1 : PropertyBlockchain) (o a p k : String)
    (hInv : Invariant H st)
    (hfresh : dlookup st.customer_key_to_owner k = none)
    (h : register_or_validate_identity st o a p k = .ok st1) :
    Invariant H st1 := by
  rcases register_ok_shape st st1 o a p k h with h1 | ⟨hnoreg, h1⟩
  · subst h1; exact hInv
  · subst h1
    -- the new-owner path is taken only when neither ID is bound to another
    -- owner; under the invariant this forces both reverse-map lookups to be
    -- `none`.
    have haad : dlookup st.aadhar_to_owner (removeSpaceDash a) = none := by
      cases hl : dlookup st.aadhar_to_owner (removeSpaceDash a) with
      | none => rfl
      | some o' =>
        exfalso
        obtain ⟨r, hr, _⟩ := (hInv.aadhar_cons _ _).mp hl
        by_cases ho : o' = pyStrip o
        · subst ho; rw [hnoreg] at hr; cases hr
        · -- a conflicting owner would have raised
          simp only [register_or_validate_identity, hnoreg, hl] at h
          simp only [decide_eq_true_eq] at h
          rw [if_pos ho] at h
          cases h
    have hpan : dlookup st.pan_to_owner (pyUpper p) = none := by
      cases hl : dlookup st.pan_to_owner (pyUpper p) with
      | none => rfl
      | some o' =>
        exfalso
        obtain ⟨r, hr, _⟩ := (hInv.pan_cons _ _).mp hl
        by_cases ho : o' = pyStrip o
        · subst ho; rw [hnoreg] at hr; cases hr
        · simp only [register_or_validate_identity, hnoreg, haad, hl] at h
          simp [ho] at h
    refine ⟨?_, ?_, ?_, hInv.chain_ne, hInv.hashes, hInv.links, hInv.reg_in_index,
      hInv.reg_unique, hInv.survey_in_map, hInv.survey_unique, hInv.index_valid⟩
    · exact cons_preserved st.identity_registry st.aadhar_to_owner
        IdentityRecord.aadhar hInv.aadhar_cons (pyStrip o) (removeSpaceDash a)
        ⟨removeSpaceDash a, pyUpper p, k⟩ rfl haad hnoreg
    · exact cons_preserved st.identity_registry st.pan_to_owner
        IdentityRecord.pan hInv.pan_cons (pyStrip o) (pyUpper p)
        ⟨removeSpaceDash a, pyUpper p, k⟩ rfl hpan hnoreg
    · exact cons_preserved st.identity_registry st.customer_key_to_owner
        IdentityRecord.customer_key hInv.ck_cons (pyStrip o) k
        ⟨removeSpaceDash a, pyUpper p, k⟩ rfl hfresh hnoreg

theorem mem_of_getLast? {l : List Block} {b : Block} (h : l.getLast? = some b) :
    b ∈ l := by
  obtain ⟨ys, hys⟩ := List.getLast?_eq_some_iff.mp h
  subst hys; simp

/-- The state left by `add_property` always satisfies the invariant. -/
theorem add_property_invariant (H : BlockContent → String) (st : PropertyBlockchain)
    (property_key owner address pincode : String) (value : ℚ)
    (aadhar_no pan_no survey_no rtc_no village taluk district state
      land_area land_type description : String)
    (additional_info : List (String × String)) (now freshKey : String)
    (hInv : Invariant H st)
    (hfresh : dlookup st.customer_key_to_owner freshKey = none) :
    Invariant H (add_property H st property_key owner address pincode value
      aadhar_no pan_no survey_no rtc_no village taluk district state
      land_area land_type description additional_info now freshKey).1 := by
  unfold add_property
  split
  · exact hInv
  rename_i hdup
  split
  · exact hInv
  split
  · exact hInv
  split
  · exact hInv
  rename_i st1 hreg
  have hInv1 : Invariant H st1 :=
    register_ok_invariant H st st1 owner aadhar_no pan_no freshKey hInv hfresh hreg
  obtain ⟨hc, hpi, hsv⟩ := register_ok_frame st st1 owner aadhar_no pan_no freshKey hreg
  split
  · exact hInv1
  rename_i hsurvey
  split
  · exact hInv1
  rename_i idr hidr
  split
  · exact hInv1
  rename_i latest hlast
  simp only [get_latest_block] at hlast
  -- the success state
  have hdup' : dmem st1.property_index property_key = false := by
    rw [hpi]
    exact Bool.of_not_eq_true hdup
  have hsurvey' : dmem st1.survey_to_property (pyStrip survey_no) = false :=
    Bool.of_not_eq_true hsurvey
  refine ⟨hInv1.aadhar_cons, hInv1.pan_cons, hInv1.ck_cons, by simp, ?_, ?_, ?_, ?_, ?_, ?_, ?_⟩
  · intro b hb
    rcases List.mem_append.mp hb with hb | hb
    · exact hInv1.hashes b hb
    · simp only [List.mem_singleton] at hb; subst hb; rfl
  · refine linksOk_append st1.chain _ hInv1.links ?_
    intro last hl2
    rw [hl2] at hlast
    cases hlast
    rfl
  · intro b hb hbreg
    rcases List.mem_append.mp hb with hb | hb
    · have := hInv1.reg_in_index b hb hbreg
      by_cases hk : b.property_key = property_key
      · rw [hk, dlookup_dinsert_self]; rfl
      · rw [dlookup_dinsert_ne _ _ _ _ hk]; exact this
    · simp only [List.mem_singleton] at hb; subst hb
      simp only [mkBlock]
      rw [dlookup_dinsert_self]; rfl
  · rw [List.pairwise_append]
    refine ⟨hInv1.reg_unique, List.pairwise_singleton _ _, ?_⟩
    intro b hb nb hnb hbreg hnbreg
    simp only [List.mem_singleton] at hnb; subst hnb
    intro hkeq
    have := hInv1.reg_in_index b hb hbreg
    simp only [mkBlock] at hkeq
    rw [hkeq] at this
    rw [show (dmem st1.property_index property_key) = (dlookup st1.property_index property_key).isSome from rfl] at hdup'
    rw [hdup'] at this
    cases this
  · intro b hb r hr
    rcases List.mem_append.mp hb with hb | hb
    · have := hInv1.survey_in_map b hb r hr
      by_cases hk : pyStrip r.survey_no = pyStrip survey_no
      · rw [hk, dlookup_dinsert_self]; rfl
      · rw [dlookup_dinsert_ne _ _ _ _ hk]; exact this
    · simp only [List.mem_singleton] at hb; subst hb
      simp only [mkBlock] at hr
      cases hr
      rw [dlookup_dinsert_self]; rfl
  · rw [List.pairwise_append]
    refine ⟨hInv1.survey_unique, List.pairwise_singleton _ _, ?_⟩
    intro b hb nb hnb r1 r2 hr1 hr2
    simp only [List.mem_singleton] at hnb; subst hnb
    simp only [mkBlock] at hr2
    cases hr2
    intro hkeq
    have := hInv1.survey_in_map b hb r1 hr1
    rw [hkeq] at this
    rw [show (dmem st1.survey_to_property (pyStrip survey_no))
        = (dlookup st1.survey_to_property (pyStrip survey_no)).isSome from rfl] at hsurvey'
    rw [hsurvey'] at this
    cases this
  · intro pk l hl
    by_cases hk : pk = property_key
    · subst hk
      rw [dlookup_dinsert_self] at hl
      cases hl
      constructor
      · simp
      · intro i hi
        simp only [List.mem_singleton] at hi
        subst hi
        simp only [List.length_append, List.length_singleton]
        omega
    · rw [dlookup_dinsert_ne _ _ _ _ hk] at hl
      obtain ⟨hne, hbound⟩ := hInv1.index_valid pk l hl
      refine ⟨hne, ?_⟩
      intro i hi
      have := hbound i hi
      simp only [List.length_append, List.length_singleton]
      omega

/-- The state left by `transfer_property` always satisfies the invariant. -/
theorem transfer_property_invariant (H : BlockContent → String)
    (st : PropertyBlockchain)
    (property_key new_owner new_owner_aadhar new_owner_pan : String)
    (transfer_value : Option ℚ) (transfer_reason : String)
    (stamp_duty_paid registration_fee : Option ℚ)
    (additional_info : List (String × String)) (now freshKey : String)
    (hInv : Invariant H st)
    (hfresh : dlookup st.customer_key_to_owner freshKey = none) :
    Invariant H (transfer_property H st property_key new_owner new_owner_aadhar
      new_owner_pan transfer_value transfer_reason stamp_duty_paid
      registration_fee additional_info now freshKey).1 := by
  unfold transfer_property
  split
  · exact hInv
  split
  · exact hInv
  split
  · exact hInv
  split
  · exact hInv
  rename_i st1 hreg
  have hInv1 : Invariant H st1 :=
    register_ok_invariant H st st1 new_owner new_owner_aadhar new_owner_pan
      freshKey hInv hfresh hreg
  split
  · exact hInv1
  rename_i cs hcs
  split
  · exact hInv1
  split
  · exact hInv1
  rename_i idr hidr
  split
  · exact hInv1
  rename_i latest hlast
  simp only [get_latest_block] at hlast
  -- the success state
  refine ⟨hInv1.aadhar_cons, hInv1.pan_cons, hInv1.ck_cons, by simp, ?_, ?_, ?_, ?_, ?_, ?_, ?_⟩
  · intro b hb
    rcases List.mem_append.mp hb with hb | hb
    · exact hInv1.hashes b hb
    · simp only [List.mem_singleton] at hb; subst hb; rfl
  · refine linksOk_append st1.chain _ hInv1.links ?_
    intro last hl2
    rw [hl2] at hlast
    cases hlast
    rfl
  · intro b hb hbreg
    rcases List.mem_append.mp hb with hb | hb
    · have := hInv1.reg_in_index b hb hbreg
      rw [show dlookup (pindexAppend st1.property_index property_key st1.chain.length)
          b.property_key = (dlookup st1.property_index b.property_key).map
            (fun l => if b.property_key = property_key then l ++ [st1.chain.length] else l)
        from dlookup_pindexAppend _ _ _ _]
      cases hlk : dlookup st1.property_index b.property_key with
      | none => rw [hlk] at this; cases this
      | some l => simp
    · simp only [List.mem_singleton] at hb; subst hb
      simp [mkBlock, BlockData.isRegistration] at hbreg
  · rw [List.pairwise_append]
    refine ⟨hInv1.reg_unique, List.pairwise_singleton _ _, ?_⟩
    intro b hb nb hnb hbreg hnbreg
    simp only [List.mem_singleton] at hnb; subst hnb
    simp [mkBlock, BlockData.isRegistration] at hnbreg
  · intro b hb r hr
    rcases List.mem_append.mp hb with hb | hb
    · exact hInv1.survey_in_map b hb r hr
    · simp only [List.mem_singleton] at hb; subst hb
      simp only [mkBlock] at hr
      cases hr
  · rw [List.pairwise_append]
    refine ⟨hInv1.survey_unique, List.pairwise_singleton _ _, ?_⟩
    intro b hb nb hnb r1 r2 hr1 hr2
    simp only [List.mem_singleton] at hnb; subst hnb
    simp only [mkBlock] at hr2
    cases hr2
  · intro pk l hl
    rw [dlookup_pindexAppend] at hl
    cases hlk : dlookup st1.property_index pk with
    | none => rw [hlk] at hl; cases hl
    | some l0 =>
      rw [hlk] at hl
      simp only [Option.map_some'] at hl
      cases hl
      obtain ⟨hne, hbound⟩ := hInv1.index_valid pk l0 hlk
      by_cases hk : pk = property_key
      · rw [if_pos hk]
        constructor
        · simp
        · intro i hi
          simp only [List.length_append, List.length_singleton]
          rcases List.mem_append.mp hi with hi | hi
          · have := hbound i hi; omega
          · simp only [List.mem_singleton] at hi; subst hi; omega
      · rw [if_neg hk]
        refine ⟨hne, ?_⟩
        intro i hi
        have := hbound i hi
        simp only [List.length_append, List.length_singleton]
        omega

/-- The state left by `inherit_property` always satisfies the invariant. -/
theorem inherit_property_invariant (H : BlockContent → String)
    (st : PropertyBlockchain)
    (property_key deceased_owner heir heir_aadhar heir_pan relationship
      legal_heir_certificate_no : String)
    (additional_info : List (String × String)) (now freshKey : String)
    (hInv : Invariant H st)
    (hfresh : dlookup st.customer_key_to_owner freshKey = none) :
    Invariant H (inherit_property H st property_key deceased_owner heir
      heir_aadhar heir_pan relationship legal_heir_certificate_no
      additional_info now freshKey).1 := by
  unfold inherit_property
  split
  · exact hInv
  split
  · exact hInv
  split
  · exact hInv
  exact transfer_property_invariant H st property_key heir heir_aadhar heir_pan
    none "inheritance" none none _ now freshKey hInv hfresh

/-- Every reachable ledger state satisfies the invariant. -/
theorem reachable_invariant (H : BlockContent → String) (st : PropertyBlockchain)
    (h : Reachable H st) : Invariant H st := by
  induction h with
  | init ts => exact invariant_initial H ts
  | add st pk o addr pin v a p s r vi tl di stt la lt de ai now k hst hfresh ih =>
    exact add_property_invariant H st pk o addr pin v a p s r vi tl di stt la lt
      de ai now k ih hfresh
  | transfer st pk nw na np tv re sd rf ai now k hst hfresh ih =>
    exact transfer_property_invariant H st pk nw na np tv re sd rf ai now k ih hfresh
  | inherit st pk dow heir ha hp rel lc ai now k hst hfresh ih =>
    exact inherit_property_invariant H st pk dow heir ha hp rel lc ai now k ih hfresh

/-! ## Chain validity of reachable states, and tamper detection -/

theorem is_chain_valid_cons_cons (H : BlockContent → String) (g b : Block)
    (t : List Block) :
    is_chain_valid H (g :: b :: t) = (chainIssueAux H g (b :: t) 1).isNone := rfl

theorem first_invalid_index_cons_cons (H : BlockContent → String) (g b : Block)
    (t : List Block) :
    first_invalid_index H (g :: b :: t) = chainIssueAux H g (b :: t) 1 := rfl

theorem is_chain_valid_of_invariant (H : BlockContent → String)
    (st : PropertyBlockchain) (hInv : Invariant H st) :
    is_chain_valid H st.chain = true := by
  cases hch : st.chain with
  | nil => exact absurd hch hInv.chain_ne
  | cons g rest =>
    cases rest with
    | nil =>
      have := hInv.hashes g (by rw [hch]; simp)
      simp [is_chain_valid, this]
    | cons b t =>
      rw [is_chain_valid_cons_cons]
      have hhash : ∀ x ∈ b :: t, x.hash = H x.content := by
        intro x hx
        exact hInv.hashes x (by rw [hch]; exact List.mem_cons_of_mem _ hx)
      have hlk : linksOk (g :: b :: t) := by
        have := hInv.links; rw [hch] at this; exact this
      rw [chainIssueAux_none H (b :: t) g 1 hhash hlk]
      rfl

theorem get?_mem {α : Type} {l : List α} {n : Nat} {b : α}
    (h : l.get? n = some b) : b ∈ l := by
  obtain ⟨hn, hget⟩ := List.get?_eq_some.mp h
  subst hget
  exact List.get_mem l n hn

/-- Mutating any single persisted field of a block at index `i ≥ 1` of an
invariant-satisfying chain makes validation fail, reporting exactly index
`i`.  A single-field mutation either changes a content field and keeps the
stored hash (`Or.inr` needs the digest to distinguish the two contents), or
changes the stored hash and keeps the content. -/
theorem mutation_detected (H : BlockContent → String) (st : PropertyBlockchain)
    (hInv : Invariant H st) (i : Nat) (b1 b2 : Block)
    (hi : 1 ≤ i) (hget : st.chain.get? i = some b1)
    (hmut : (b2.content = b1.content ∧ b2.hash ≠ b1.hash) ∨
      (b2.hash = b1.hash ∧ H b2.content ≠ H b1.content)) :
    first_invalid_index H (st.chain.set i b2) = some i ∧
      is_chain_valid H (st.chain.set i b2) = false := by
  have hb1 : b1.hash = H b1.content := hInv.hashes b1 (get?_mem hget)
  have hbad : b2.hash ≠ H b2.content := by
    rcases hmut with ⟨hceq, hne⟩ | ⟨heq, hne⟩
    · rw [hceq, ← hb1]; exact hne
    · rw [heq, hb1]; exact fun hx => hne hx.symm
  cases hch : st.chain with
  | nil => rw [hch] at hget; cases hget
  | cons g rest =>
    rw [hch] at hget
    obtain ⟨j, hj⟩ : ∃ j, i = j + 1 := ⟨i - 1, by omega⟩
    subst hj
    simp only [List.get?_cons_succ] at hget
    have hjlt : j < rest.length := (List.get?_eq_some.mp hget).1
    have hset : (g :: rest).set (j + 1) b2 = g :: rest.set j b2 := rfl
    rw [hset]
    have hsplit : rest.set j b2 = rest.take j ++ b2 :: rest.drop (j + 1) := by
      rw [List.set_eq_take_append_cons_drop, if_pos hjlt]
    have hlinks : linksOk (g :: rest.take j) := by
      have h0 : linksOk ((g :: rest).take (j + 1)) :=
        linksOk_take _ _ (by rw [← hch]; exact hInv.links)
      simpa using h0
    have hhash : ∀ x ∈ rest.take j, x.hash = H x.content := by
      intro x hx
      exact hInv.hashes x
        (by rw [hch]
            exact List.mem_cons_of_mem _ ((List.take_sublist j rest).mem hx))
    have hfail := chainIssueAux_fail H b2 hbad (rest.take j) g 1
      (rest.drop (j + 1)) hhash hlinks
    have hlen : (rest.take j).length = j := by
      simp [List.length_take]
      omega
    rw [hlen] at hfail
    have hcons : ∃ c t, rest.set j b2 = c :: t := by
      cases hr : rest.set j b2 with
      | nil =>
        exfalso
        have := List.length_set rest j b2
        rw [hr] at this
        simp at this
        omega
      | cons c t => exact ⟨c, t, rfl⟩
    obtain ⟨c, t, hct⟩ := hcons
    rw [hct, first_invalid_index_cons_cons, is_chain_valid_cons_cons, ← hct, hsplit, hfail]
    constructor
    · congr 1; omega
    · rfl

/-! ## Claim C3: uniqueness invariants -/

/-- On an aadhar conflict (the cleaned aadhar is bound to a different owner
name), `register_or_validate_identity` always raises. -/
theorem register_conflict_error (H : BlockContent → String)
    (st : PropertyBlockchain) (hInv : Invariant H st) (o a p k o0 : String)
    (hbound : dlookup st.aadhar_to_owner (removeSpaceDash a) = some o0)
    (hne : o0 ≠ pyStrip o) :
    ∃ e, register_or_validate_identity st o a p k = .error e := by
  cases hreg : dlookup st.identity_registry (pyStrip o) with
  | some idr =>
    by_cases hida : idr.aadhar = removeSpaceDash a
    · exfalso
      have : dlookup st.aadhar_to_owner (removeSpaceDash a) = some (pyStrip o) :=
        (hInv.aadhar_cons _ _).mpr ⟨idr, hreg, hida⟩
      rw [hbound] at this
      cases this
      exact hne rfl
    · refine ⟨"Identity mismatch: owner is already registered with a different Aadhar", ?_⟩
      simp only [register_or_validate_identity, hreg]
      rw [if_pos hida]
  | none =>
    refine ⟨"Aadhar number is already registered to another owner", ?_⟩
    simp only [register_or_validate_identity, hreg, hbound]
    rw [if_pos (by simp [hne])]

/-- The uniqueness properties asserted by the specification: no two distinct
registered owners share an Aadhaar or a PAN, property keys and (stripped)
survey numbers are unique across registration records, registering a second
property against an Aadhaar held by a different owner fails, and
re-registering an existing property key fails. -/
def UniquenessProps (H : BlockContent → String) (st : PropertyBlockchain) : Prop :=
  (∀ o1 o2 r1 r2, dlookup st.identity_registry o1 = some r1 →
    dlookup st.identity_registry o2 = some r2 → o1 ≠ o2 →
    r1.aadhar ≠ r2.aadhar ∧ r1.pan ≠ r2.pan) ∧
  List.Pairwise (fun b1 b2 => b1.data.isRegistration = true →
    b2.data.isRegistration = true → b1.property_key ≠ b2.property_key) st.chain ∧
  List.Pairwise (fun b1 b2 => ∀ r1 r2, b1.data = BlockData.registration r1 →
    b2.data = BlockData.registration r2 →
    pyStrip r1.survey_no ≠ pyStrip r2.survey_no) st.chain ∧
  (∀ property_key owner address pincode value aadhar_no pan_no survey_no rtc_no
      village taluk district state land_area land_type description
      additional_info now freshKey o0,
    dlookup st.aadhar_to_owner (removeSpaceDash aadhar_no) = some o0 →
    o0 ≠ pyStrip owner →
    ∃ e, (add_property H st property_key owner address pincode value aadhar_no
      pan_no survey_no rtc_no village taluk district state land_area land_type
      description additional_info now freshKey).2 = .error e) ∧
  (∀ property_key owner address pincode value aadhar_no pan_no survey_no rtc_no
      village taluk district state land_area land_type description
      additional_info now freshKey,
    dmem st.property_index property_key = true →
    ∃ e, (add_property H st property_key owner address pincode value aadhar_no
      pan_no survey_no rtc_no village taluk district state land_area land_type
      description additional_info now freshKey).2 = .error e)

/-- C3: In every ledger state reachable from genesis via the public append
operations, no Aadhaar number and no PAN maps to two different owner names,
no survey number maps to two different property identifiers, a property
identifier can never be registered twice; registering a property with an
Aadhaar bound to a different owner name fails, and re-registering an existing
property key fails. -/
theorem c3_uniqueness (H : BlockContent → String) (st : PropertyBlockchain)
    (h : Reachable H st) : UniquenessProps H st := by
  have hInv := reachable_invariant H st h
  refine ⟨?_, hInv.reg_unique, hInv.survey_unique, ?_, ?_⟩
  · intro o1 o2 r1 r2 h1 h2 hne
    constructor
    · intro hx
      have m1 : dlookup st.aadhar_to_owner r1.aadhar = some o1 :=
        (hInv.aadhar_cons _ _).mpr ⟨r1, h1, rfl⟩
      have m2 : dlookup st.aadhar_to_owner r1.aadhar = some o2 :=
        (hInv.aadhar_cons _ _).mpr ⟨r2, h2, hx.symm⟩
      rw [m1] at m2
      cases m2
      exact hne rfl
    · intro hx
      have m1 : dlookup st.pan_to_owner r1.pan = some o1 :=
        (hInv.pan_cons _ _).mpr ⟨r1, h1, rfl⟩
      have m2 : dlookup st.pan_to_owner r1.pan = some o2 :=
        (hInv.pan_cons _ _).mpr ⟨r2, h2, hx.symm⟩
      rw [m1] at m2
      cases m2
      exact hne rfl
  · intro pk o addr pin v a p s r vi tl di stt la lt de ai now k o0 hbound hne
    unfold add_property
    split
    · exact ⟨_, rfl⟩
    split
    · exact ⟨_, rfl⟩
    split
    · exact ⟨_, rfl⟩
    split
    · exact ⟨_, rfl⟩
    rename_i st1 hreg
    exfalso
    obtain ⟨e, he⟩ := register_conflict_error H st hInv o a p k o0 hbound hne
    rw [hreg] at he
    cases he
  · intro pk o addr pin v a p s r vi tl di stt la lt de ai now k hmem
    unfold add_property
    rw [if_pos hmem]
    exact ⟨_, rfl⟩

/-! ## Claim C1: chain integrity -/

/-- C1 (amended): a ledger built from a fresh genesis block solely through the
public append operations always passes `is_chain_valid`; and mutating any
single persisted field of a stored record at index `i ≥ 1` (either a content
field, provided the digest distinguishes the contents, or the stored hash)
makes validation fail, reporting exactly index `i` as the first offending
index.  (Mutations of the genesis record itself are not covered: in a
multi-record chain they go undetected, see the counterexample.) -/
theorem c1_chain_integrity (H : BlockContent → String) (st : PropertyBlockchain)
    (h : Reachable H st) :
    is_chain_valid H st.chain = true ∧
    ∀ i b1 b2, 1 ≤ i → st.chain.get? i = some b1 →
      ((b2.content = b1.content ∧ b2.hash ≠ b1.hash) ∨
        (b2.hash = b1.hash ∧ H b2.content ≠ H b1.content)) →
      first_invalid_index H (st.chain.set i b2) = some i ∧
        is_chain_valid H (st.chain.set i b2) = false := by
  have hInv := reachable_invariant H st h
  exact ⟨is_chain_valid_of_invariant H st hInv,
    fun i b1 b2 hi hget hmut => mutation_detected H st hInv i b1 b2 hi hget hmut⟩

/-- A concrete two-block ledger (genesis plus one registration) used by the
witnesses: property `P1`, owner `Alice`. -/
def wChain1 : PropertyBlockchain :=
  (add_property testH (initialState testH "t0") "P1" "Alice" "12 Main St"
    "560001" 1000000 "123456789012" "ABCDE1234F" "24/1" "" "" "" "" "" "" "" ""
    [] "t1" "CUST-A").1

theorem wChain1_reachable : Reachable testH wChain1 :=
  Reachable.add (initialState testH "t0") "P1" "Alice" "12 Main St" "560001"
    1000000 "123456789012" "ABCDE1234F" "24/1" "" "" "" "" "" "" "" "" [] "t1"
    "CUST-A" (Reachable.init "t0") rfl

/-- The registration block of `wChain1`. -/
def wB1 : Block :=
  (add_property testH (initialState testH "t0") "P1" "Alice" "12 Main St"
    "560001" 1000000 "123456789012" "ABCDE1234F" "24/1" "" "" "" "" "" "" "" ""
    [] "t1" "CUST-A").2.toOption.getD (genesisBlock testH "z")

/-- `wB1` with its stored hash tampered. -/
def wB1X : Block := { wB1 with hash := "XX" }

theorem c1_chain_integrity_witness :
    is_chain_valid testH wChain1.chain = true ∧
    first_invalid_index testH (wChain1.chain.set 1 wB1X) = some 1 ∧
    is_chain_valid testH (wChain1.chain.set 1 wB1X) = false := by
  obtain ⟨h1, h2⟩ := c1_chain_integrity testH wChain1 wChain1_reachable
  have hm := h2 1 wB1 wB1X (by decide) (by decide) (Or.inl ⟨rfl, by decide⟩)
  exact ⟨h1, hm.1, hm.2⟩

/-- C1 counterexample: flipping the genesis record's payload in a two-block
ledger built through the public operations is NOT detected — validation still
passes, refuting the claim for records at index 0. -/
theorem c1_counterexample :
    Reachable testH wChain1 ∧
    wChain1.chain.get? 0 = some (genesisBlock testH "t0") ∧
    ({ genesisBlock testH "t0" with data := BlockData.genesis "TAMPERED" } : Block)
      ≠ genesisBlock testH "t0" ∧
    is_chain_valid testH (wChain1.chain.set 0
      { genesisBlock testH "t0" with data := BlockData.genesis "TAMPERED" }) = true :=
  ⟨wChain1_reachable, by decide, by decide, by decide⟩

theorem c3_uniqueness_witness : UniquenessProps testH wChain1 :=
  c3_uniqueness testH wChain1 wChain1_reachable

/-! ## Result characterizations of the mutation operations -/

theorem bool_of_not_not {b : Bool} (h : ¬ (!b) = true) : b = true := by
  cases b
  · simp at h
  · rfl

/-- Every run of `add_property` either fails before touching the state, fails
after `register_or_validate_identity` already committed its registration, or
succeeds with the appended registration block. -/
theorem add_property_cases (H : BlockContent → String) (st : PropertyBlockchain)
    (property_key owner address pincode : String) (value : ℚ)
    (aadhar_no pan_no survey_no rtc_no village taluk district state
      land_area land_type description : String)
    (additional_info : List (String × String)) (now freshKey : String) :
    (∃ e, add_property H st property_key owner address pincode value aadhar_no
      pan_no survey_no rtc_no village taluk district state land_area land_type
      description additional_info now freshKey = (st, .error e)) ∨
    (∃ st1 e, register_or_validate_identity st owner aadhar_no pan_no freshKey = .ok st1 ∧
      add_property H st property_key owner address pincode value aadhar_no
        pan_no survey_no rtc_no village taluk district state land_area land_type
        description additional_info now freshKey = (st1, .error e)) ∨
    (∃ st1 idr latest,
      register_or_validate_identity st owner aadhar_no pan_no freshKey = .ok st1 ∧
      dlookup st1.identity_registry (pyStrip owner) = some idr ∧
      st1.chain.getLast? = some latest ∧
      dmem st.property_index property_key = false ∧
      validate_aadhar aadhar_no = true ∧ validate_pan pan_no = true ∧
      dmem st1.survey_to_property (pyStrip survey_no) = false ∧
      add_property H st property_key owner address pincode value aadhar_no
        pan_no survey_no rtc_no village taluk district state land_area land_type
        description additional_info now freshKey =
        ({ st1 with
            chain := st1.chain ++
              [mkBlock H st1.chain.length now
                (.registration
                  { owner := owner, customer_key := idr.customer_key,
                    aadhar_no := removeSpaceDash aadhar_no,
                    pan_no := pyUpper pan_no, address := address,
                    pincode := pincode, value := value, survey_no := survey_no,
                    rtc_no := rtc_no, village := village, taluk := taluk,
                    district := district, state := state, land_area := land_area,
                    land_type := land_type, description := description,
                    additional_info := additional_info })
                latest.hash property_key],
            property_index :=
              dinsert st1.property_index property_key [st1.chain.length],
            survey_to_property :=
              dinsert st1.survey_to_property (pyStrip survey_no) property_key },
          .ok (mkBlock H st1.chain.length now
            (.registration
              { owner := owner, customer_key := idr.customer_key,
                aadhar_no := removeSpaceDash aadhar_no,
                pan_no := pyUpper pan_no, address := address,
                pincode := pincode, value := value, survey_no := survey_no,
                rtc_no := rtc_no, village := village, taluk := taluk,
                district := district, state := state, land_area := land_area,
                land_type := land_type, description := description,
                additional_info := additional_info })
            latest.hash property_key))) := by
  unfold add_property
  split
  · exact Or.inl ⟨_, rfl⟩
  rename_i hdup
  split
  · exact Or.inl ⟨_, rfl⟩
  rename_i ha
  split
  · exact Or.inl ⟨_, rfl⟩
  rename_i hp
  split
  · exact Or.inl ⟨_, rfl⟩
  rename_i st1 hreg
  split
  · exact Or.inr (Or.inl ⟨st1, _, hreg, rfl⟩)
  rename_i hsurv
  split
  · exact Or.inr (Or.inl ⟨st1, _, hreg, rfl⟩)
  rename_i idr hidr
  split
  · exact Or.inr (Or.inl ⟨st1, _, hreg, rfl⟩)
  rename_i latest hlast
  exact Or.inr (Or.inr ⟨st1, idr, latest, hreg, hidr,
    (by simpa [get_latest_block] using hlast), Bool.of_not_eq_true hdup,
    bool_of_not_not ha, bool_of_not_not hp, Bool.of_not_eq_true hsurv, rfl⟩)

/-- Every run of `transfer_property` either fails before touching the state,
fails after `register_or_validate_identity` already committed its
registration, or succeeds with the appended transfer block. -/
theorem transfer_property_cases (H : BlockContent → String)
    (st : PropertyBlockchain)
    (property_key new_owner new_owner_aadhar new_owner_pan : String)
    (transfer_value : Option ℚ) (transfer_reason : String)
    (stamp_duty_paid registration_fee : Option ℚ)
    (additional_info : List (String × String)) (now freshKey : String) :
    (∃ e, transfer_property H st property_key new_owner new_owner_aadhar
      new_owner_pan transfer_value transfer_reason stamp_duty_paid
      registration_fee additional_info now freshKey = (st, .error e)) ∨
    (∃ st1 e, register_or_validate_identity st new_owner new_owner_aadhar
        new_owner_pan freshKey = .ok st1 ∧
      transfer_property H st property_key new_owner new_owner_aadhar
        new_owner_pan transfer_value transfer_reason stamp_duty_paid
        registration_fee additional_info now freshKey = (st1, .error e)) ∨
    (∃ st1 cs idr latest,
      register_or_validate_identity st new_owner new_owner_aadhar new_owner_pan
        freshKey = .ok st1 ∧
      get_property_current_state st1 property_key = .ok cs ∧
      ¬ pyLower (pyStrip cs.owner) = pyLower (pyStrip new_owner) ∧
      dlookup st1.identity_registry (pyStrip new_owner) = some idr ∧
      st1.chain.getLast? = some latest ∧
      dmem st.property_index property_key = true ∧
      transfer_property H st property_key new_owner new_owner_aadhar
        new_owner_pan transfer_value transfer_reason stamp_duty_paid
        registration_fee additional_info now freshKey =
        ({ st1 with
            chain := st1.chain ++
              [mkBlock H st1.chain.length now
                (.transfer (mkTransferData cs idr.customer_key new_owner
                  new_owner_aadhar new_owner_pan transfer_value transfer_reason
                  stamp_duty_paid registration_fee additional_info))
                latest.hash property_key],
            property_index :=
              pindexAppend st1.property_index property_key st1.chain.length },
          .ok (mkBlock H st1.chain.length now
            (.transfer (mkTransferData cs idr.customer_key new_owner
              new_owner_aadhar new_owner_pan transfer_value transfer_reason
              stamp_duty_paid registration_fee additional_info))
            latest.hash property_key))) := by
  unfold transfer_property
  split
  · exact Or.inl ⟨_, rfl⟩
  rename_i hmem
  split
  · exact Or.inl ⟨_, rfl⟩
  split
  · exact Or.inl ⟨_, rfl⟩
  split
  · exact Or.inl ⟨_, rfl⟩
  rename_i st1 hreg
  split
  · exact Or.inr (Or.inl ⟨st1, _, hreg, rfl⟩)
  rename_i cs hcs
  split
  · exact Or.inr (Or.inl ⟨st1, _, hreg, rfl⟩)
  rename_i hself
  split
  · exact Or.inr (Or.inl ⟨st1, _, hreg, rfl⟩)
  rename_i idr hidr
  split
  · exact Or.inr (Or.inl ⟨st1, _, hreg, rfl⟩)
  rename_i latest hlast
  exact Or.inr (Or.inr ⟨st1, cs, idr, latest, hreg, hcs, hself, hidr,
    (by simpa [get_latest_block] using hlast), bool_of_not_not hmem, rfl⟩)

/-! ## Claim C2: what an error leaves behind -/

/-- What a raising operation may leave behind: the chain, the property index
and the survey registry are untouched, and the identity maps are either
untouched or hold exactly the new owner's (validated, fresh) registration. -/
def ErrorFrame (st st' : PropertyBlockchain) (owner aadhar pan freshKey : String) : Prop :=
  st'.chain = st.chain ∧ st'.property_index = st.property_index ∧
  st'.survey_to_property = st.survey_to_property ∧
  (st' = st ∨ st' = registeredState st owner aadhar pan freshKey)

theorem add_error_frame (H : BlockContent → String) (st : PropertyBlockchain)
    (property_key owner address pincode : String) (value : ℚ)
    (aadhar_no pan_no survey_no rtc_no village taluk district state
      land_area land_type description : String)
    (additional_info : List (String × String)) (now freshKey : String)
    (e : String)
    (h : (add_property H st property_key owner address pincode value aadhar_no
      pan_no survey_no rtc_no village taluk district state land_area land_type
      description additional_info now freshKey).2 = .error e) :
    ErrorFrame st (add_property H st property_key owner address pincode value
      aadhar_no pan_no survey_no rtc_no village taluk district state land_area
      land_type description additional_info now freshKey).1
      owner aadhar_no pan_no freshKey := by
  rcases add_property_cases H st property_key owner address pincode value
      aadhar_no pan_no survey_no rtc_no village taluk district state land_area
      land_type description additional_info now freshKey with
    ⟨e', heq⟩ | ⟨st1, e', hreg, heq⟩ |
    ⟨st1, idr, latest, hreg, _, _, _, _, _, _, heq⟩
  · rw [heq]
    exact ⟨rfl, rfl, rfl, Or.inl rfl⟩
  · rw [heq]
    obtain ⟨hc, hpi, hsv⟩ :=
      register_ok_frame st st1 owner aadhar_no pan_no freshKey hreg
    rcases register_ok_shape st st1 owner aadhar_no pan_no freshKey hreg with
      h1 | ⟨_, h1⟩
    · exact ⟨hc, hpi, hsv, Or.inl h1⟩
    · exact ⟨hc, hpi, hsv, Or.inr h1⟩
  · rw [heq] at h
    simp at h

theorem transfer_error_frame (H : BlockContent → String) (st : PropertyBlockchain)
    (property_key new_owner new_owner_aadhar new_owner_pan : String)
    (transfer_value : Option ℚ) (transfer_reason : String)
    (stamp_duty_paid registration_fee : Option ℚ)
    (additional_info : List (String × String)) (now freshKey : String)
    (e : String)
    (h : (transfer_property H st property_key new_owner new_owner_aadhar
      new_owner_pan transfer_value transfer_reason stamp_duty_paid
      registration_fee additional_info now freshKey).2 = .error e) :
    ErrorFrame st (transfer_property H st property_key new_owner
      new_owner_aadhar new_owner_pan transfer_value transfer_reason
      stamp_duty_paid registration_fee additional_info now freshKey).1
      new_owner new_owner_aadhar new_owner_pan freshKey := by
  rcases transfer_property_cases H st property_key new_owner new_owner_aadhar
      new_owner_pan transfer_value transfer_reason stamp_duty_paid
      registration_fee additional_info now freshKey with
    ⟨e', heq⟩ | ⟨st1, e', hreg, heq⟩ |
    ⟨st1, cs, idr, latest, hreg, _, _, _, _, _, heq⟩
  · rw [heq]
    exact ⟨rfl, rfl, rfl, Or.inl rfl⟩
  · rw [heq]
    obtain ⟨hc, hpi, hsv⟩ :=
      register_ok_frame st st1 new_owner new_owner_aadhar new_owner_pan freshKey hreg
    rcases register_ok_shape st st1 new_owner new_owner_aadhar new_owner_pan
      freshKey hreg with h1 | ⟨_, h1⟩
    · exact ⟨hc, hpi, hsv, Or.inl h1⟩
    · exact ⟨hc, hpi, hsv, Or.inr h1⟩
  · rw [heq] at h
    simp at h

theorem inherit_property_cases (H : BlockContent → String)
    (st : PropertyBlockchain)
    (property_key deceased_owner heir heir_aadhar heir_pan relationship
      legal_heir_certificate_no : String)
    (additional_info : List (String × String)) (now freshKey : String) :
    (∃ e, inherit_property H st property_key deceased_owner heir heir_aadhar
      heir_pan relationship legal_heir_certificate_no additional_info now
      freshKey = (st, .error e)) ∨
    inherit_property H st property_key deceased_owner heir heir_aadhar heir_pan
      relationship legal_heir_certificate_no additional_info now freshKey =
      transfer_property H st property_key heir heir_aadhar heir_pan none
        "inheritance" none none
        (dinsert (dinsert additional_info "relationship" relationship)
          "legal_heir_certificate_no" legal_heir_certificate_no) now freshKey := by
  unfold inherit_property
  split
  · exact Or.inl ⟨_, rfl⟩
  split
  · exact Or.inl ⟨_, rfl⟩
  split
  · exact Or.inl ⟨_, rfl⟩
  exact Or.inr rfl

theorem inherit_error_frame (H : BlockContent → String) (st : PropertyBlockchain)
    (property_key deceased_owner heir heir_aadhar heir_pan relationship
      legal_heir_certificate_no : String)
    (additional_info : List (String × String)) (now freshKey : String)
    (e : String)
    (h : (inherit_property H st property_key deceased_owner heir heir_aadhar
      heir_pan relationship legal_heir_certificate_no additional_info now
      freshKey).2 = .error e) :
    ErrorFrame st (inherit_property H st property_key deceased_owner heir
      heir_aadhar heir_pan relationship legal_heir_certificate_no
      additional_info now freshKey).1 heir heir_aadhar heir_pan freshKey := by
  rcases inherit_property_cases H st property_key deceased_owner heir heir_aadhar
      heir_pan relationship legal_heir_certificate_no additional_info now freshKey with
    ⟨e', heq⟩ | heq
  · rw [heq]
    exact ⟨rfl, rfl, rfl, Or.inl rfl⟩
  · rw [heq] at h ⊢
    exact transfer_error_frame H st property_key heir heir_aadhar heir_pan none
      "inheritance" none none _ now freshKey e h

/-- C2 (amended): whenever `add_property`, `transfer_property` or
`inherit_property` raises, the chain, the property index and the survey
registry are exactly as before the call; the identity registry and the three
reverse ID maps are either unchanged, or — when the error was detected after
`register_or_validate_identity` had already committed (duplicate survey
number; self-transfer spelled with different case/whitespace) — retain
exactly the new owner's registration.  The claim's stronger statement that
the *entire* state always equals the pre-call state is refuted by the
counterexample. -/
theorem c2_error_isolation (H : BlockContent → String) (st : PropertyBlockchain) :
    (∀ property_key owner address pincode value aadhar_no pan_no survey_no
        rtc_no village taluk district state land_area land_type description
        additional_info now freshKey e,
      (add_property H st property_key owner address pincode value aadhar_no
        pan_no survey_no rtc_no village taluk district state land_area
        land_type description additional_info now freshKey).2 = .error e →
      ErrorFrame st (add_property H st property_key owner address pincode value
        aadhar_no pan_no survey_no rtc_no village taluk district state
        land_area land_type description additional_info now freshKey).1
        owner aadhar_no pan_no freshKey) ∧
    (∀ property_key new_owner new_owner_aadhar new_owner_pan transfer_value
        transfer_reason stamp_duty_paid registration_fee additional_info now
        freshKey e,
      (transfer_property H st property_key new_owner new_owner_aadhar
        new_owner_pan transfer_value transfer_reason stamp_duty_paid
        registration_fee additional_info now freshKey).2 = .error e →
      ErrorFrame st (transfer_property H st property_key new_owner
        new_owner_aadhar new_owner_pan transfer_value transfer_reason
        stamp_duty_paid registration_fee additional_info now freshKey).1
        new_owner new_owner_aadhar new_owner_pan freshKey) ∧
    (∀ property_key deceased_owner heir heir_aadhar heir_pan relationship
        legal_heir_certificate_no additional_info now freshKey e,
      (inherit_property H st property_key deceased_owner heir heir_aadhar
        heir_pan relationship legal_heir_certificate_no additional_info now
        freshKey).2 = .error e →
      ErrorFrame st (inherit_property H st property_key deceased_owner heir
        heir_aadhar heir_pan relationship legal_heir_certificate_no
        additional_info now freshKey).1 heir heir_aadhar heir_pan freshKey) := by
  refine ⟨?_, ?_, ?_⟩
  · intro pk o addr pin v a p s r vi tl di stt la lt de ai now k e h
    exact add_error_frame H st pk o addr pin v a p s r vi tl di stt la lt de ai now k e h
  · intro pk nw na np tv re sd rf ai now k e h
    exact transfer_error_frame H st pk nw na np tv re sd rf ai now k e h
  · intro pk dow heir ha hp rel lc ai now k e h
    exact inherit_error_frame H st pk dow heir ha hp rel lc ai now k e h

/-- The duplicate-survey registration attempt against `wChain1` (survey
`24/1` is already bound to `P1`; `Carol` is a brand-new owner). -/
def wDupSurvey : PropertyBlockchain × Except String Block :=
  add_property testH wChain1 "P2" "Carol" "9 Side St" "560002" 500
    "555566667777" "LMNOP9012Q" "24/1" "" "" "" "" "" "" "" "" [] "t3" "CUST-C"

theorem c2_error_isolation_witness :
    ErrorFrame wChain1 wDupSurvey.1 "Carol" "555566667777" "LMNOP9012Q" "CUST-C" :=
  (c2_error_isolation testH wChain1).1 "P2" "Carol" "9 Side St" "560002" 500
    "555566667777" "LMNOP9012Q" "24/1" "" "" "" "" "" "" "" "" [] "t3" "CUST-C"
    "Survey number is already registered to another property." rfl

/-- C2 counterexample: a duplicate-survey conflict raises, yet the identity
registry differs from the pre-call state — the new owner's identity was
already committed, so the rejection is not free of partial state change. -/
theorem c2_counterexample :
    wDupSurvey.2 =
      Except.error "Survey number is already registered to another property." ∧
    wDupSurvey.1.identity_registry ≠ wChain1.identity_registry :=
  ⟨rfl, by decide⟩

/-! ## Claim C10: falsy-zero transfer value vs explicit zero fees -/

theorem pyOrQ_some_zero : pyOrQ (some 0) = pyOrQ none := by
  funext f
  simp [pyOrQ]

/-- C10: in `transfer_property`, a supplied `transfer_value` of `0` behaves
exactly like omitting it (Python `or` treats `0.0` as falsy, so the effective
value falls back to the tracked value and the 2%/5% defaults are computed
from that fallback); by contrast, explicitly supplied zero fees are honored
as given, because only `None` triggers the percentage defaults. -/
theorem c10_zero_value_fallback (H : BlockContent → String)
    (st : PropertyBlockchain)
    (property_key new_owner new_owner_aadhar new_owner_pan : String)
    (transfer_reason : String) (stamp_duty_paid registration_fee : Option ℚ)
    (additional_info : List (String × String)) (now freshKey : String) :
    transfer_property H st property_key new_owner new_owner_aadhar new_owner_pan
      (some 0) transfer_reason stamp_duty_paid registration_fee additional_info
      now freshKey =
    transfer_property H st property_key new_owner new_owner_aadhar new_owner_pan
      none transfer_reason stamp_duty_paid registration_fee additional_info
      now freshKey ∧
    (∀ transfer_value st' b,
      transfer_property H st property_key new_owner new_owner_aadhar
        new_owner_pan transfer_value transfer_reason (some 0) (some 0)
        additional_info now freshKey = (st', .ok b) →
      ∃ t, b.data = BlockData.transfer t ∧ t.stamp_duty_paid = 0 ∧
        t.registration_fee = 0 ∧ t.new_property_value = t.transfer_value) := by
  constructor
  · simp only [transfer_property, mkTransferData, pyOrQ_some_zero]
  · intro tv st' b ht
    rcases transfer_property_cases H st property_key new_owner new_owner_aadhar
        new_owner_pan tv transfer_reason (some 0) (some 0) additional_info now
        freshKey with
      ⟨e, heq⟩ | ⟨st1, e, _, heq⟩ |
      ⟨st1, cs, idr, latest, _, _, _, _, _, _, heq⟩
    · rw [heq] at ht
      simp [Prod.ext_iff] at ht
    · rw [heq] at ht
      simp [Prod.ext_iff] at ht
    · rw [heq] at ht
      simp only [Prod.mk.injEq, Except.ok.injEq] at ht
      obtain ⟨_, hb⟩ := ht
      subst hb
      refine ⟨mkTransferData cs idr.customer_key new_owner new_owner_aadhar
        new_owner_pan tv transfer_reason (some 0) (some 0) additional_info,
        rfl, rfl, rfl, ?_⟩
      simp [mkTransferData, defaultFee]

/-- A successful sale transfer of `P1` from `Alice` to `Bob` on `wChain1`
with every optional numeric argument omitted. -/
def wTr : PropertyBlockchain × Except String Block :=
  transfer_property testH wChain1 "P1" "Bob" "222233334444" "FGHIJ5678K" none
    "sale" none none [] "t2" "CUST-B"

/-- The transfer block produced by `wTr`. -/
def wTrBlock : Block := wTr.2.toOption.getD (genesisBlock testH "z")

/-- The same transfer with explicit zero fees supplied. -/
def wTrZ : PropertyBlockchain × Except String Block :=
  transfer_property testH wChain1 "P1" "Bob" "222233334444" "FGHIJ5678K" none
    "sale" (some 0) (some 0) [] "t2" "CUST-B"

/-- The transfer block produced by `wTrZ`. -/
def wTrZBlock : Block := wTrZ.2.toOption.getD (genesisBlock testH "z")

theorem c10_zero_value_fallback_witness :
    ∃ t, wTrZBlock.data = BlockData.transfer t ∧ t.stamp_duty_paid = 0 ∧
      t.registration_fee = 0 ∧ t.new_property_value = t.transfer_value :=
  (c10_zero_value_fallback testH wChain1 "P1" "Bob" "222233334444"
    "FGHIJ5678K" "sale" (some 0) (some 0) [] "t2" "CUST-B").2 none
    wTrZ.1 wTrZBlock rfl

/-! ## Claim C5: no validation of `value` in `add_property` -/

/-- C5 (amended): `add_property` performs no validation of `value` at all —
whenever the preconditions that are actually checked hold (fresh property
key, well-formed IDs, consistent identity, fresh survey number), the
registration succeeds for ANY value, including non-positive ones, and the
appended record carries that value.  The `value > 0` rejection exists only in
the excluded web-application shell. -/
theorem c5_no_value_validation (H : BlockContent → String)
    (st st1 : PropertyBlockchain)
    (property_key owner address pincode : String) (value : ℚ)
    (aadhar_no pan_no survey_no rtc_no village taluk district state
      land_area land_type description : String)
    (additional_info : List (String × String)) (now freshKey : String)
    (hv : value ≤ 0)
    (h1 : dmem st.property_index property_key = false)
    (h2 : validate_aadhar aadhar_no = true)
    (h3 : validate_pan pan_no = true)
    (h4 : register_or_validate_identity st owner aadhar_no pan_no freshKey = .ok st1)
    (h5 : dmem st1.survey_to_property (pyStrip survey_no) = false)
    (h6 : st.chain ≠ []) :
    ∃ b, (add_property H st property_key owner address pincode value aadhar_no
      pan_no survey_no rtc_no village taluk district state land_area land_type
      description additional_info now freshKey).2 = .ok b ∧
      ∃ r, b.data = BlockData.registration r ∧ r.value = value := by
  obtain ⟨idr, hidr⟩ := register_ok_registered st st1 owner aadhar_no pan_no freshKey h4
  obtain ⟨hc, _, _⟩ := register_ok_frame st st1 owner aadhar_no pan_no freshKey h4
  have hne : st1.chain ≠ [] := by rw [hc]; exact h6
  obtain ⟨latest, hlast⟩ : ∃ l, st1.chain.getLast? = some l := by
    cases hgl : st1.chain.getLast? with
    | some l => exact ⟨l, rfl⟩
    | none =>
      exfalso
      cases hcc : st1.chain with
      | nil => exact hne hcc
      | cons x xs =>
        rw [hcc] at hgl
        rw [List.getLast?_eq_getLast (x :: xs) (by simp)] at hgl
        cases hgl
  simp only [add_property, h1, h2, h3, h4, h5, hidr, get_latest_block, hlast,
    Bool.false_eq_true, if_false, Bool.not_true, Bool.true_eq_false]
  refine ⟨_, rfl, _, rfl, rfl⟩

/-- The zero-value registration accepted by the ledger core. -/
def wZeroValue : PropertyBlockchain × Except String Block :=
  add_property testH (initialState testH "t0") "P1" "Alice" "12 Main St"
    "560001" 0 "123456789012" "ABCDE1234F" "24/1" "" "" "" "" "" "" "" "" []
    "t1" "CUST-A"

/-- C5 counterexample: a registration with `value = 0` is not rejected — it
succeeds and appends a record, so the ledger state changes. -/
theorem c5_counterexample :
    (∃ b, wZeroValue.2 = Except.ok b) ∧
    wZeroValue.1.chain ≠ (initialState testH "t0").chain :=
  ⟨⟨_, rfl⟩, by decide⟩

theorem c5_no_value_validation_witness :
    ∃ b, wZeroValue.2 = Except.ok b ∧
      ∃ r, b.data = BlockData.registration r ∧ r.value = 0 :=
  c5_no_value_validation testH (initialState testH "t0")
    (registeredState (initialState testH "t0") "Alice" "123456789012"
      "ABCDE1234F" "CUST-A")
    "P1" "Alice" "12 Main St" "560001" 0 "123456789012" "ABCDE1234F" "24/1"
    "" "" "" "" "" "" "" "" [] "t1" "CUST-A" le_rfl rfl (by decide) (by decide)
    rfl rfl (by decide)

/-! ## Claim C4: fee derivation and value compounding -/

theorem fetchBlocks_append_chain (c : List Block) (b : Block) (l : List Nat)
    (hb : ∀ i ∈ l, i < c.length) :
    fetchBlocks (c ++ [b]) l = fetchBlocks c l := by
  induction l with
  | nil => rfl
  | cons i rest ih =>
    have hi : i < c.length := hb i (by simp)
    simp only [fetchBlocks, List.get?_append hi,
      ih (fun j hj => hb j (List.mem_cons_of_mem _ hj))]

theorem fetchBlocks_snoc (c : List Block) (l : List Nat) (j : Nat)
    (hist : List Block) (bj : Block)
    (hl : fetchBlocks c l = .ok hist) (hj : c.get? j = some bj) :
    fetchBlocks c (l ++ [j]) = .ok (hist ++ [bj]) := by
  induction l generalizing hist with
  | nil =>
    cases hl
    simp only [List.nil_append, fetchBlocks, hj]
  | cons i rest ih =>
    simp only [fetchBlocks] at hl
    cases hgi : c.get? i with
    | none => rw [hgi] at hl; cases hl
    | some bi =>
      rw [hgi] at hl
      cases hrest : fetchBlocks c rest with
      | error e => rw [hrest] at hl; cases hl
      | ok bs =>
        rw [hrest] at hl
        cases hl
        simp only [List.cons_append, fetchBlocks, hgi]
        rw [show rest.append [j] = rest ++ [j] from rfl, ih bs hrest]

/-- `get_property_current_state` reads only the property index and the chain. -/
theorem current_state_congr (st st1 : PropertyBlockchain) (pk : String)
    (hc : st1.chain = st.chain) (hpi : st1.property_index = st.property_index) :
    get_property_current_state st1 pk = get_property_current_state st pk := by
  unfold get_property_current_state
  rw [hc, hpi]

/-- Anatomy of a successful `get_property_current_state`. -/
theorem current_state_ok_parts (st : PropertyBlockchain) (pk : String)
    (cs : CurrentState) (h : get_property_current_state st pk = .ok cs) :
    ∃ l hist first rest reg,
      dlookup st.property_index pk = some l ∧
      fetchBlocks st.chain l = .ok hist ∧
      hist = first :: rest ∧ first.data = BlockData.registration reg := by
  unfold get_property_current_state at h
  split at h
  · cases h
  rename_i l hl
  split at h
  · cases h
  rename_i li hli
  split at h
  · cases h
  rename_i latest hlatest
  split at h
  · cases h
  rename_i hist hhist
  split at h
  · cases h
  rename_i first tail
  split at h
  · rename_i reg hreg
    exact ⟨l, first :: tail, first, tail, reg, hl, hhist, rfl, hreg⟩
  · cases h

/-- Appending a transfer block for `pk` and extending its index produces a
current state whose tracked value is the block's (non-zero)
`new_property_value`. -/
theorem current_state_after_transfer (st1 : PropertyBlockchain) (pk : String)
    (b : Block) (t : TransferData) (hb : b.data = BlockData.transfer t)
    (hidx : ∀ pk0 l, dlookup st1.property_index pk0 = some l →
      l ≠ [] ∧ ∀ i ∈ l, i < st1.chain.length)
    (cs : CurrentState) (hcs : get_property_current_state st1 pk = .ok cs)
    (hnz : t.new_property_value ≠ 0) :
    ∃ cs', get_property_current_state
        { st1 with
          chain := st1.chain ++ [b],
          property_index := pindexAppend st1.property_index pk st1.chain.length }
        pk = .ok cs' ∧
      cs'.owner = t.new_owner ∧ cs'.value = t.new_property_value := by
  obtain ⟨l, hist, first, rest, reg, hl, hfetch, hhist, hreg⟩ :=
    current_state_ok_parts st1 pk cs hcs
  obtain ⟨hlne, hbound⟩ := hidx pk l hl
  have hlook : dlookup (pindexAppend st1.property_index pk st1.chain.length) pk
      = some (l ++ [st1.chain.length]) := by
    rw [dlookup_pindexAppend, hl]
    simp
  have hget : (st1.chain ++ [b]).get? st1.chain.length = some b :=
    List.get?_concat_length _ _
  have hfetch2 : fetchBlocks (st1.chain ++ [b]) (l ++ [st1.chain.length])
      = .ok (hist ++ [b]) :=
    fetchBlocks_snoc _ _ _ _ _
      (by rw [fetchBlocks_append_chain st1.chain b l hbound]; exact hfetch) hget
  have hlast2 : (l ++ [st1.chain.length]).getLast? = some st1.chain.length :=
    List.getLast?_concat _
  have hhlast : (hist ++ [b]).getLast? = some b := List.getLast?_concat _
  have hlen : 1 < (hist ++ [b]).length := by
    rw [hhist]
    simp
  refine ⟨overlayTransfer (regBaseState pk reg first.timestamp b.timestamp
      ((hist ++ [b]).length - 1)) t, ?_, ?_, ?_⟩
  · rw [hhist] at hfetch2 hhlast
    rw [List.cons_append] at hhlast
    unfold get_property_current_state
    simp only [hlook, hlast2, hget, hfetch2, hhlast, hreg, hb, hhist,
      List.cons_append]
    rw [if_pos (by
      simp only [List.length_cons, List.length_append, List.length_singleton]
      omega)]
  · rfl
  · simp only [overlayTransfer]
    rw [if_pos hnz]

/-- C4: a transfer with `transfer_value`, `stamp_duty` and `registration_fee`
all omitted derives `stamp_duty = 2%` and `registration_fee = 5%` of the
property's current tracked value, records
`new_property_value = value + stamp_duty + registration_fee`, and (for a
non-zero result) the property's tracked current value after the transfer is
exactly that compounded amount.  Instantiated at value 1,000,000 this gives
20,000 / 50,000 / 1,070,000 (see the witness). -/
theorem c4_fee_compounding (H : BlockContent → String) (st : PropertyBlockchain)
    (property_key new_owner new_owner_aadhar new_owner_pan : String)
    (transfer_reason : String) (additional_info : List (String × String))
    (now freshKey : String) (st' : PropertyBlockchain) (b : Block)
    (cs : CurrentState)
    (hreach : Reachable H st)
    (hcs : get_property_current_state st property_key = .ok cs)
    (ht : transfer_property H st property_key new_owner new_owner_aadhar
      new_owner_pan none transfer_reason none none additional_info now freshKey
      = (st', .ok b)) :
    ∃ t, b.data = BlockData.transfer t ∧
      t.stamp_duty_paid = cs.value * (2 / 100) ∧
      t.registration_fee = cs.value * (5 / 100) ∧
      t.new_property_value = cs.value + cs.value * (2 / 100) + cs.value * (5 / 100) ∧
      (cs.value ≠ 0 →
        ∃ cs', get_property_current_state st' property_key = .ok cs' ∧
          cs'.value = cs.value + cs.value * (2 / 100) + cs.value * (5 / 100)) := by
  have hInv := reachable_invariant H st hreach
  rcases transfer_property_cases H st property_key new_owner new_owner_aadhar
      new_owner_pan none transfer_reason none none additional_info now freshKey with
    ⟨e, heq⟩ | ⟨st1, e, _, heq⟩ |
    ⟨st1, cs1, idr, latest, hreg, hcs1, _, hidr, hlast, _, heq⟩
  · rw [heq] at ht
    simp [Prod.ext_iff] at ht
  · rw [heq] at ht
    simp [Prod.ext_iff] at ht
  · rw [heq] at ht
    simp only [Prod.mk.injEq, Except.ok.injEq] at ht
    obtain ⟨hst', hb⟩ := ht
    obtain ⟨hc, hpi, _⟩ := register_ok_frame st st1 new_owner new_owner_aadhar
      new_owner_pan freshKey hreg
    have hcs1' : get_property_current_state st1 property_key
        = get_property_current_state st property_key :=
      current_state_congr st st1 property_key hc hpi
    rw [hcs1', hcs] at hcs1
    cases hcs1
    subst hb
    refine ⟨_, rfl, ?_, ?_, ?_, ?_⟩
    · simp [mkTransferData, defaultFee, pyOrQ]
    · simp [mkTransferData, defaultFee, pyOrQ]
    · simp [mkTransferData, defaultFee, pyOrQ]
    · intro hvne
      have hnz : (mkTransferData cs idr.customer_key new_owner new_owner_aadhar
          new_owner_pan none transfer_reason none none
          additional_info).new_property_value ≠ 0 := by
        simp only [mkTransferData, defaultFee, pyOrQ]
        intro hx
        apply hvne
        have : cs.value * (1 + 2 / 100 + 5 / 100) = 0 := by ring_nf; ring_nf at hx; linarith
        rcases mul_eq_zero.mp this with h0 | h0
        · exact h0
        · norm_num at h0
      have hidx : ∀ pk0 l, dlookup st1.property_index pk0 = some l →
          l ≠ [] ∧ ∀ i ∈ l, i < st1.chain.length := by
        intro pk0 l hl
        rw [hpi] at hl
        rw [hc]
        exact hInv.index_valid pk0 l hl
      obtain ⟨cs', hcs', _, hval⟩ := current_state_after_transfer st1 property_key
        (mkBlock H st1.chain.length now
          (.transfer (mkTransferData cs idr.customer_key new_owner
            new_owner_aadhar new_owner_pan none transfer_reason none none
            additional_info))
          latest.hash property_key)
        (mkTransferData cs idr.customer_key new_owner new_owner_aadhar
          new_owner_pan none transfer_reason none none additional_info)
        rfl hidx cs (hcs1'.trans hcs) hnz
      rw [hst'] at hcs'
      refine ⟨cs', hcs', ?_⟩
      rw [hval]
      simp [mkTransferData, defaultFee, pyOrQ]

/-- The current state of `P1` in `wChain1` (owner `Alice`, value 1,000,000). -/
def wCS1 : CurrentState :=
  (get_property_current_state wChain1 "P1").toOption.getD
    (regBaseState "" ⟨"", "", "", "", "", "", 0, "", "", "", "", "", "", "", "", "", []⟩ "" "" 0)

theorem c4_fee_compounding_witness :
    ∃ t, wTrBlock.data = BlockData.transfer t ∧
      t.stamp_duty_paid = 20000 ∧ t.registration_fee = 50000 ∧
      t.new_property_value = 1070000 ∧
      ∃ cs', get_property_current_state wTr.1 "P1" = .ok cs' ∧
        cs'.value = 1070000 := by
  obtain ⟨t, h1, h2, h3, h4, h5⟩ := c4_fee_compounding testH wChain1 "P1" "Bob"
    "222233334444" "FGHIJ5678K" "sale" [] "t2" "CUST-B" wTr.1 wTrBlock wCS1
    wChain1_reachable rfl rfl
  have hv : wCS1.value = 1000000 := rfl
  rw [hv] at h2 h3 h4
  obtain ⟨cs', hcs', hval⟩ := h5 (by rw [hv]; norm_num)
  rw [hv] at hval
  exact ⟨t, h1, by rw [h2]; norm_num, by rw [h3]; norm_num,
    by rw [h4]; norm_num, cs', hcs', by rw [hval]; norm_num⟩

/-! ## Claim C6: `_encrypt_data` / `_decrypt_data` round trip

The pair is modelled at the byte level: a Python `str` enters
`_encrypt_data` as its UTF-8 byte sequence (`data.encode("utf-8")`) and
leaves `_decrypt_data` through the inverse `decode("utf-8")`, so the
round-trip of the XOR-with-repeating-key and base64 layers over arbitrary
byte lists is exactly the round-trip of the Python functions.  The 32-byte
key `hashlib.sha256(b"pawperty_blockchain_key").digest()` is abstracted as
an arbitrary non-empty list of bytes. -/

def b64Alphabet : List Char :=
  "ABCDEFGHIJKLMNOPQRSTUVWXYZabcdefghijklmnopqrstuvwxyz0123456789+/".toList

/-- The character for a sextet value. -/
def b64Char (n : Nat) : Char := b64Alphabet.getD n '?'

/-- The sextet value of an alphabet character. -/
def b64Val (c : Char) : Nat := b64Alphabet.indexOf c

/-- RFC 4648 base64 of a byte list (what `base64.b64encode` produces). -/
def b64encode : List Nat → List Char
  | a :: b :: c :: rest =>
    b64Char (a / 4) :: b64Char ((a % 4) * 16 + b / 16) ::
      b64Char ((b % 16) * 4 + c / 64) :: b64Char (c % 64) :: b64encode rest
  | [a, b] => [b64Char (a / 4), b64Char ((a % 4) * 16 + b / 16),
      b64Char ((b % 16) * 4), '=']
  | [a] => [b64Char (a / 4), b64Char ((a % 4) * 16), '=', '=']
  | [] => []

/-- Base64 decoding on well-padded input (what `base64.b64decode` computes on
encoder output). -/
def b64decode : List Char → List Nat
  | c1 :: c2 :: c3 :: c4 :: rest =>
    if c3 = '=' then [b64Val c1 * 4 + b64Val c2 / 16]
    else if c4 = '=' then
      [b64Val c1 * 4 + b64Val c2 / 16, (b64Val c2 % 16) * 16 + b64Val c3 / 4]
    else
      (b64Val c1 * 4 + b64Val c2 / 16) :: ((b64Val c2 % 16) * 16 + b64Val c3 / 4) ::
        ((b64Val c3 % 4) * 64 + b64Val c4) :: b64decode rest
  | _ => []

theorem b64Val_b64Char : ∀ n, n < 64 → b64Val (b64Char n) = n := by decide

theorem b64Char_ne_pad : ∀ n, n < 64 → b64Char n ≠ '=' := by decide

theorem b64_round_trip : ∀ l : List Nat, (∀ x ∈ l, x < 256) →
    b64decode (b64encode l) = l
  | [], _ => rfl
  | [a], h => by
    have ha : a < 256 := h a (by simp)
    simp only [b64encode, b64decode, eq_self_iff_true, if_true]
    rw [b64Val_b64Char (a / 4) (by omega), b64Val_b64Char (a % 4 * 16) (by omega)]
    congr 1
    omega
  | [a, b], h => by
    have ha : a < 256 := h a (by simp)
    have hb : b < 256 := h b (by simp)
    simp only [b64encode, b64decode]
    rw [if_neg (b64Char_ne_pad (b % 16 * 4) (by omega))]
    simp only [eq_self_iff_true, if_true]
    rw [b64Val_b64Char (a / 4) (by omega),
      b64Val_b64Char (a % 4 * 16 + b / 16) (by omega),
      b64Val_b64Char (b % 16 * 4) (by omega)]
    congr 1
    · omega
    · congr 1
      omega
  | a :: b :: c :: rest, h => by
    have ha : a < 256 := h a (by simp)
    have hb : b < 256 := h b (by simp)
    have hc : c < 256 := h c (by simp)
    have ih := b64_round_trip rest (fun x hx => h x (by simp [hx]))
    simp only [b64encode, b64decode]
    rw [if_neg (b64Char_ne_pad (b % 16 * 4 + c / 64) (by omega)),
      if_neg (b64Char_ne_pad (c % 64) (by omega))]
    rw [b64Val_b64Char (a / 4) (by omega),
      b64Val_b64Char (a % 4 * 16 + b / 16) (by omega),
      b64Val_b64Char (b % 16 * 4 + c / 64) (by omega),
      b64Val_b64Char (c % 64) (by omega)]
    rw [ih]
    congr 1
    · omega
    congr 1
    · omega
    congr 1
    omega

/-- Python `key[i % len(key)]` (total, with junk value 0 past the end). -/
def pyIndex (key : List Nat) (i : Nat) : Nat :=
  (key.get? (i % key.length)).getD 0

/-- The XOR loop shared by `_encrypt_data` and `_decrypt_data`, carrying the
running byte position. -/
def xorKeyAux (key : List Nat) : Nat → List Nat → List Nat
  | _, [] => []
  | i, b :: rest => (b ^^^ pyIndex key i) :: xorKeyAux key (i + 1) rest

/-- `_encrypt_data` (byte level): XOR with the repeating key, then base64. -/
def encrypt_data (key : List Nat) (data : List Nat) : List Char :=
  b64encode (xorKeyAux key 0 data)

/-- `_decrypt_data` (byte level): base64-decode, then XOR with the same key. -/
def decrypt_data (key : List Nat) (s : List Char) : List Nat :=
  xorKeyAux key 0 (b64decode s)

theorem pyIndex_lt (key : List Nat) (hkb : ∀ k ∈ key, k < 256) (i : Nat) :
    pyIndex key i < 256 := by
  unfold pyIndex
  cases hg : key.get? (i % key.length) with
  | none => simp
  | some v =>
    simp only [Option.getD_some]
    exact hkb v (get?_mem hg)

theorem xorKeyAux_lt (key : List Nat) (hkb : ∀ k ∈ key, k < 256) :
    ∀ (l : List Nat) (i : Nat), (∀ b ∈ l, b < 256) →
      ∀ x ∈ xorKeyAux key i l, x < 256 := by
  intro l
  induction l with
  | nil => intro i _ x hx; simp [xorKeyAux] at hx
  | cons b rest ih =>
    intro i hl x hx
    simp only [xorKeyAux, List.mem_cons] at hx
    rcases hx with hx | hx
    · subst hx
      have h1 : b < 2 ^ 8 := hl b (by simp)
      have h2 : pyIndex key i < 2 ^ 8 := pyIndex_lt key hkb i
      exact Nat.xor_lt_two_pow h1 h2
    · exact ih (i + 1) (fun y hy => hl y (List.mem_cons_of_mem _ hy)) x hx

theorem xorKeyAux_involutive (key : List Nat) :
    ∀ (l : List Nat) (i : Nat), xorKeyAux key i (xorKeyAux key i l) = l := by
  intro l
  induction l with
  | nil => intro i; rfl
  | cons b rest ih =>
    intro i
    simp only [xorKeyAux, ih (i + 1)]
    congr 1
    rw [Nat.xor_assoc, Nat.xor_self, Nat.xor_zero]

/-- C6: decrypting the encryption of any byte string returns it exactly —
the XOR-with-derived-key-then-base64 transform is a strict round-trip
identity (for any non-empty byte-valued key, in particular the fixed 32-byte
SHA-256 digest used by the code). -/
theorem c6_encrypt_decrypt_roundtrip (key data : List Nat)
    (hk : key ≠ []) (hkb : ∀ k ∈ key, k < 256) (hd : ∀ b ∈ data, b < 256) :
    decrypt_data key (encrypt_data key data) = data := by
  unfold encrypt_data decrypt_data
  rw [b64_round_trip _ (xorKeyAux_lt key hkb data 0 hd)]
  exact xorKeyAux_involutive key data 0

theorem c6_encrypt_decrypt_roundtrip_witness :
    ([1, 2, 3] : List Nat) ≠ [] ∧
    decrypt_data [1, 2, 3] (encrypt_data [1, 2, 3] [72, 105, 33, 0, 255]) =
      [72, 105, 33, 0, 255] :=
  ⟨by decide, c6_encrypt_decrypt_roundtrip [1, 2, 3] [72, 105, 33, 0, 255]
    (by decide) (by decide) (by decide)⟩

/-! ## Claim C8: startup restore priority

`PropertyBlockchain.__init__` tries, in order: the latest database backup
(only when `auto_restore` is set, as the application does at startup), the
latest known IPFS CID, the local encrypted file, and finally a fresh
genesis chain.  The three restore attempts perform network/disk I/O; each
is modelled by its outcome: `Option PropertyBlockchain` for the database and
IPFS paths (`some st` = the attempt succeeded, loaded and validated `st`),
and an `Option BackupData` for the local file (`none` = file missing,
undecryptable or unparseable), which still runs the validation performed by
`_load_blockchain`. -/

/-- The decrypted, JSON-parsed contents of a persisted blockchain blob. -/
structure BackupData where
  chain : List Block
  property_index : List (String × List Nat)
  identity_registry : List (String × IdentityRecord)
  aadhar_to_owner : List (String × String)
  pan_to_owner : List (String × String)
  customer_key_to_owner : List (String × String)
  survey_to_property : List (String × String)
  saved_at : String
deriving DecidableEq, Repr

/-- Reconstructing the in-memory state from a parsed backup (stored hashes
are restored verbatim, not recomputed). -/
def restoreState (bd : BackupData) : PropertyBlockchain :=
  { chain := bd.chain, property_index := bd.property_index,
    identity_registry := bd.identity_registry,
    aadhar_to_owner := bd.aadhar_to_owner, pan_to_owner := bd.pan_to_owner,
    customer_key_to_owner := bd.customer_key_to_owner,
    survey_to_property := bd.survey_to_property }

/-- `_load_blockchain` from the decrypt/parse step onwards: reconstruct,
validate the chain, and bounds-check every index of `property_index`. -/
def load_blockchain (H : BlockContent → String) (file : Option BackupData) :
    Option PropertyBlockchain :=
  match file with
  | none => none
  | some bd =>
    if is_chain_valid H (restoreState bd).chain then
      if (restoreState bd).property_index.all
          (fun p => p.2.all (fun i => decide (i < (restoreState bd).chain.length))) then
        some (restoreState bd)
      else none
    else none

/-- The restore-source selection of `__init__`. -/
def bcInit (H : BlockContent → String) (auto_restore : Bool)
    (dbRestore ipfsRestore : Option PropertyBlockchain)
    (localFile : Option BackupData) (ts : String) : PropertyBlockchain :=
  match auto_restore, dbRestore with
  | true, some stDb => stDb
  | _, _ =>
    match ipfsRestore with
    | some stIpfs => stIpfs
    | none =>
      match load_blockchain H localFile with
      | some stLoc => stLoc
      | none => initialState H ts

/-- The specification's fixed priority order, written as an option chain:
relational backup first (when enabled), then the remote CID, then the local
encrypted file, and only then a fresh genesis ledger. -/
def restorePriority (H : BlockContent → String) (auto_restore : Bool)
    (dbRestore ipfsRestore : Option PropertyBlockchain)
    (localFile : Option BackupData) (ts : String) : PropertyBlockchain :=
  (((if auto_restore then dbRestore else none).or ipfsRestore).or
    (load_blockchain H localFile)).getD (initialState H ts)

theorem load_blockchain_valid (H : BlockContent → String)
    (file : Option BackupData) (s : PropertyBlockchain)
    (h : load_blockchain H file = some s) : is_chain_valid H s.chain = true := by
  cases file with
  | none => cases h
  | some bd =>
    simp only [load_blockchain] at h
    split at h
    · rename_i hvalid
      split at h
      · cases h
        exact hvalid
      · cases h
    · cases h

/-- C8: startup restores by trying sources in the fixed priority order —
latest relational-backup row (enabled at startup via `auto_restore=True`),
then the latest known remote-store CID, then the local encrypted file, and
only if all of these fail a fresh genesis ledger; in particular, when the
relational source is unavailable (and no remote CID resolves) but a valid
local encrypted file exists, startup produces a validated ledger equal to
the one obtained by loading that local file directly. -/
theorem c8_restore_priority (H : BlockContent → String) (auto_restore : Bool)
    (dbRestore ipfsRestore : Option PropertyBlockchain)
    (localFile : Option BackupData) (ts : String) :
    bcInit H auto_restore dbRestore ipfsRestore localFile ts =
      restorePriority H auto_restore dbRestore ipfsRestore localFile ts ∧
    (∀ s, dbRestore = none → ipfsRestore = none →
      load_blockchain H localFile = some s →
      bcInit H auto_restore dbRestore ipfsRestore localFile ts = s ∧
        is_chain_valid H s.chain = true) := by
  constructor
  · cases auto_restore <;> cases dbRestore <;> cases ipfsRestore <;>
      cases hl : load_blockchain H localFile <;>
      simp [bcInit, restorePriority, hl, Option.or]
  · intro s hdb hipfs hload
    subst hdb; subst hipfs
    refine ⟨?_, load_blockchain_valid H localFile s hload⟩
    cases auto_restore <;> simp [bcInit, hload]

/-- A parsed backup holding the two blocks of `wChain1`. -/
def wBackup : BackupData :=
  { chain := wChain1.chain, property_index := wChain1.property_index,
    identity_registry := wChain1.identity_registry,
    aadhar_to_owner := wChain1.aadhar_to_owner,
    pan_to_owner := wChain1.pan_to_owner,
    customer_key_to_owner := wChain1.customer_key_to_owner,
    survey_to_property := wChain1.survey_to_property, saved_at := "t9" }

theorem c8_restore_priority_witness :
    bcInit testH true none none (some wBackup) "tz" = restoreState wBackup ∧
    is_chain_valid testH (restoreState wBackup).chain = true :=
  (c8_restore_priority testH true none none (some wBackup) "tz").2
    (restoreState wBackup) rfl rfl rfl

/-! ## Claim C9: partial recovery from a corrupted backup -/

/-- The block-salvaging loop of `attempt_recovery_from_encrypted_data`:
keep blocks while each one's stored hash matches a fresh recomputation, and
stop at the first failure. -/
def validPrefixBlocks (H : BlockContent → String) : List Block → List Block
  | [] => []
  | b :: rest =>
    if b.hash = H b.content then b :: validPrefixBlocks H rest else []

/-- The `property_index` rebuild over the recovered blocks (`new_index`
enumerates the recovered chain from 0). -/
def rebuildIndexAux : List Block → Nat → List (String × List Nat) →
    List (String × List Nat)
  | [], _, acc => acc
  | b :: rest, i, acc =>
    rebuildIndexAux rest (i + 1)
      (if dmem acc b.property_key then pindexAppend acc b.property_key i
        else dinsert acc b.property_key [i])

/-- `attempt_recovery_from_encrypted_data` from the decrypt/parse step
onwards.  Note that only `property_index` is rebuilt from the recovered
prefix; the identity registry, the reverse ID maps and the survey registry
are restored verbatim from the (possibly corrupted) backup. -/
def attempt_recovery_from_encrypted_data (H : BlockContent → String)
    (st : PropertyBlockchain) (bd : BackupData) :
    PropertyBlockchain × Bool × String :=
  if (validPrefixBlocks H bd.chain).isEmpty then
    (st, false, "No valid blocks found in backup")
  else
    if is_chain_valid H (validPrefixBlocks H bd.chain) then
      ({ chain := validPrefixBlocks H bd.chain,
          property_index := rebuildIndexAux (validPrefixBlocks H bd.chain) 0 [],
          identity_registry := bd.identity_registry,
          aadhar_to_owner := bd.aadhar_to_owner,
          pan_to_owner := bd.pan_to_owner,
          customer_key_to_owner := bd.customer_key_to_owner,
          survey_to_property := bd.survey_to_property },
        true,
        String.append "Successfully recovered "
          (String.append (toString (validPrefixBlocks H bd.chain).length)
            " valid blocks"))
    else
      ({ chain := validPrefixBlocks H bd.chain,
          property_index := rebuildIndexAux (validPrefixBlocks H bd.chain) 0 [],
          identity_registry := bd.identity_registry,
          aadhar_to_owner := bd.aadhar_to_owner,
          pan_to_owner := bd.pan_to_owner,
          customer_key_to_owner := bd.customer_key_to_owner,
          survey_to_property := bd.survey_to_property },
        true,
        String.append "Recovered "
          (String.append (toString (validPrefixBlocks H bd.chain).length)
            " blocks but chain validation failed - data may be incomplete"))

theorem validPrefixBlocks_spec (H : BlockContent → String) :
    ∀ l : List Block, ∃ n,
      validPrefixBlocks H l = l.take n ∧
      (∀ b ∈ validPrefixBlocks H l, b.hash = H b.content) ∧
      (n = l.length ∨ ∃ bb, l.get? n = some bb ∧ bb.hash ≠ H bb.content) := by
  intro l
  induction l with
  | nil => exact ⟨0, rfl, by simp [validPrefixBlocks], Or.inl rfl⟩
  | cons b rest ih =>
    obtain ⟨n, h1, h2, h3⟩ := ih
    by_cases hb : b.hash = H b.content
    · refine ⟨n + 1, ?_, ?_, ?_⟩
      · simp only [validPrefixBlocks, if_pos hb, List.take_succ_cons, h1]
      · intro x hx
        simp only [validPrefixBlocks, if_pos hb, List.mem_cons] at hx
        rcases hx with hx | hx
        · subst hx; exact hb
        · exact h2 x hx
      · rcases h3 with h3 | ⟨bb, hbb1, hbb2⟩
        · exact Or.inl (by simp [h3])
        · exact Or.inr ⟨bb, by simpa using hbb1, hbb2⟩
    · exact ⟨0, by simp [validPrefixBlocks, if_neg hb], by simp [validPrefixBlocks, if_neg hb],
        Or.inr ⟨b, rfl, hb⟩⟩

/-- C9 (amended): recovery retains exactly the longest prefix of stored
records whose stored hash matches a fresh recomputation; on a wholly
invalid backup it reports failure with the state unchanged; otherwise it
reports success, rebuilds `property_index` from the retained prefix — but
restores the identity registry, the reverse ID maps and the survey registry
verbatim from the backup rather than from the prefix, and its success
outcome does not distinguish a full restore from a partial recovery whose
prefix happens to validate (see the counterexample). -/
theorem c9_recovery (H : BlockContent → String) (st : PropertyBlockchain)
    (bd : BackupData) :
    (∃ n, validPrefixBlocks H bd.chain = bd.chain.take n ∧
      (∀ b ∈ validPrefixBlocks H bd.chain, b.hash = H b.content) ∧
      (n = bd.chain.length ∨
        ∃ bb, bd.chain.get? n = some bb ∧ bb.hash ≠ H bb.content)) ∧
    (validPrefixBlocks H bd.chain = [] →
      attempt_recovery_from_encrypted_data H st bd =
        (st, false, "No valid blocks found in backup")) ∧
    (validPrefixBlocks H bd.chain ≠ [] →
      (attempt_recovery_from_encrypted_data H st bd).1.chain =
        validPrefixBlocks H bd.chain ∧
      (attempt_recovery_from_encrypted_data H st bd).1.property_index =
        rebuildIndexAux (validPrefixBlocks H bd.chain) 0 [] ∧
      (attempt_recovery_from_encrypted_data H st bd).1.identity_registry =
        bd.identity_registry ∧
      (attempt_recovery_from_encrypted_data H st bd).1.survey_to_property =
        bd.survey_to_property ∧
      (attempt_recovery_from_encrypted_data H st bd).2.1 = true) := by
  refine ⟨validPrefixBlocks_spec H bd.chain, ?_, ?_⟩
  · intro hempty
    unfold attempt_recovery_from_encrypted_data
    rw [if_pos (by simp [hempty])]
  · intro hne
    unfold attempt_recovery_from_encrypted_data
    rw [if_neg (by simp [hne])]
    split <;> exact ⟨rfl, rfl, rfl, rfl, rfl⟩

/-- A block whose stored hash does not self-verify. -/
def wBadBlock : Block := { genesisBlock testH "t0" with hash := "bogus" }

/-- A fully valid one-block backup. -/
def wBackupGood : BackupData :=
  { chain := [genesisBlock testH "t0"], property_index := [],
    identity_registry := [], aadhar_to_owner := [], pan_to_owner := [],
    customer_key_to_owner := [], survey_to_property := [], saved_at := "s" }

/-- The same chain with a corrupt trailing block and a survey-registry entry
that no block of the salvageable prefix mentions. -/
def wBackupStale : BackupData :=
  { chain := [genesisBlock testH "t0", wBadBlock], property_index := [],
    identity_registry := [], aadhar_to_owner := [], pan_to_owner := [],
    customer_key_to_owner := [], survey_to_property := [("S9", "PX")],
    saved_at := "s" }

/-- The corrupted chain with pristine (empty) metadata. -/
def wBackupPartial : BackupData :=
  { chain := [genesisBlock testH "t0", wBadBlock], property_index := [],
    identity_registry := [], aadhar_to_owner := [], pan_to_owner := [],
    customer_key_to_owner := [], survey_to_property := [], saved_at := "s" }

theorem c9_recovery_witness :
    (attempt_recovery_from_encrypted_data testH (initialState testH "q")
        wBackupStale).1.chain = validPrefixBlocks testH wBackupStale.chain ∧
    (attempt_recovery_from_encrypted_data testH (initialState testH "q")
        wBackupStale).1.property_index =
      rebuildIndexAux (validPrefixBlocks testH wBackupStale.chain) 0 [] ∧
    (attempt_recovery_from_encrypted_data testH (initialState testH "q")
        wBackupStale).1.identity_registry = wBackupStale.identity_registry ∧
    (attempt_recovery_from_encrypted_data testH (initialState testH "q")
        wBackupStale).1.survey_to_property = wBackupStale.survey_to_property ∧
    (attempt_recovery_from_encrypted_data testH (initialState testH "q")
        wBackupStale).2.1 = true :=
  (c9_recovery testH (initialState testH "q") wBackupStale).2.2 (by decide)

/-- C9 counterexample.  Two backups with the SAME retained prefix produce
different survey registries after recovery, so the derived indices are not
rebuilt "from that prefix alone"; and a full restore and a strictly partial
recovery return the IDENTICAL success outcome, so the caller cannot
distinguish them. -/
theorem c9_counterexample :
    validPrefixBlocks testH wBackupStale.chain =
      validPrefixBlocks testH wBackupGood.chain ∧
    (attempt_recovery_from_encrypted_data testH (initialState testH "q")
        wBackupStale).1.survey_to_property ≠
      (attempt_recovery_from_encrypted_data testH (initialState testH "q")
        wBackupGood).1.survey_to_property ∧
    validPrefixBlocks testH wBackupPartial.chain ≠ wBackupPartial.chain ∧
    validPrefixBlocks testH wBackupGood.chain = wBackupGood.chain ∧
    (attempt_recovery_from_encrypted_data testH (initialState testH "q")
        wBackupPartial).2 =
      (attempt_recovery_from_encrypted_data testH (initialState testH "q")
        wBackupGood).2 :=
  ⟨by decide, by decide, by decide, by decide, by decide⟩

/-! ## Claim C7: `unified_search` -/

/-- Python `q in t` (substring containment) on character lists. -/
def strContains (t q : List Char) : Bool :=
  (List.range (t.length + 1)).any (fun i => q.isPrefixOf (t.drop i))

/-- Python `s.split()`: split on whitespace runs, dropping empty pieces. -/
def splitWsAux : List Char → List Char → List (List Char)
  | [], acc => if acc.isEmpty then [] else [acc.reverse]
  | c :: rest, acc =>
    if isPySpace c then
      if acc.isEmpty then splitWsAux rest [] else acc.reverse :: splitWsAux rest []
    else splitWsAux rest (c :: acc)

def splitWs (cs : List Char) : List (List Char) := splitWsAux cs []

/-- `_calculate_fuzzy_score`: substring and token matching with a
character-set (Jaccard-style) fallback carrying a first-character bonus. -/
def calculate_fuzzy_score (query target : String) : ℚ :=
  let q := (pyStrip (pyLower query)).toList
  let t := (pyStrip (pyLower target)).toList
  if q.isEmpty || t.isEmpty then 0
  else if q = t then 100
  else if strContains t q then 90 + ((q.length : ℚ) / (t.length : ℚ)) * 10
  else if q.isPrefixOf t then 85 + ((q.length : ℚ) / (t.length : ℚ)) * 10
  else
    let query_words := splitWs q
    let target_words := splitWs t
    if query_words.all (fun qw => target_words.any (fun tw => strContains tw qw)) then 80
    else
      let matching_words := (query_words.filter
        (fun qw => target_words.any (fun tw => strContains tw qw || strContains qw tw))).length
      let word_score : ℚ :=
        if query_words.isEmpty then 0
        else ((matching_words : ℚ) / (query_words.length : ℚ)) * 70
      if ¬ query_words.isEmpty ∧ 30 < word_score then word_score
      else
        let query_chars := (q.filter (fun c => !(c == ' '))).dedup
        let target_chars := (t.filter (fun c => !(c == ' '))).dedup
        if query_chars.isEmpty || target_chars.isEmpty then 0
        else
          let common := (query_chars.filter (fun c => target_chars.contains c)).length
          let total := ((query_chars ++ target_chars).dedup).length
          let char_score := ((common : ℚ) / (total : ℚ)) * 50
          match q, t with
          | qc :: _, tc :: _ => if qc = tc then char_score + 10 else char_score
          | _, _ => char_score

/-- One entry of the `searchable_fields` dict literal of `unified_search`. -/
structure FieldSpec where
  name : String
  value : String
  weight : ℚ
  normalize : Bool
  fuzzy : Bool
deriving DecidableEq, Repr

/-- The `searchable_fields` dict, in its insertion order. -/
def searchable_fields (s : CurrentState) : List FieldSpec :=
  [⟨"property_key", s.property_key, 1, false, false⟩,
   ⟨"owner", s.owner, 1, false, true⟩,
   ⟨"customer_key", s.customer_key, 95 / 100, false, false⟩,
   ⟨"survey_no", s.survey_no, 9 / 10, false, false⟩,
   ⟨"rtc_no", s.rtc_no, 9 / 10, false, false⟩,
   ⟨"aadhar_no", s.aadhar_no, 85 / 100, true, false⟩,
   ⟨"pan_no", s.pan_no, 85 / 100, false, false⟩,
   ⟨"village", s.village, 7 / 10, false, false⟩,
   ⟨"district", s.district, 7 / 10, false, false⟩,
   ⟨"taluk", s.taluk, 7 / 10, false, false⟩,
   ⟨"pincode", s.pincode, 8 / 10, false, false⟩,
   ⟨"address", s.address, 6 / 10, false, false⟩]

/-- The cleaned field value compared against the query. -/
def fieldCleanOf (f : FieldSpec) : String :=
  if f.normalize then pyLower (removeSpaceDash f.value) else pyLower f.value

/-- The query form compared against this field. -/
def compareQueryOf (search_query query_normalized : String) (f : FieldSpec) : String :=
  if f.normalize then query_normalized else search_query

/-- The tiered raw score of one field: exact match, prefix, substring, then
the fuzzy fallback (only when the field carries the `fuzzy` flag). -/
def rawFieldScore (compare_query field_value_clean : List Char) (useFuzzy : Bool)
    (search_query field_value : String) : ℚ :=
  if compare_query = field_value_clean then 100
  else if compare_query.isPrefixOf field_value_clean then
    90 + ((compare_query.length : ℚ) / (field_value_clean.length : ℚ)) * 10
  else if strContains field_value_clean compare_query then
    75 + ((compare_query.length : ℚ) / (field_value_clean.length : ℚ)) * 15
  else if useFuzzy then calculate_fuzzy_score search_query field_value
  else 0

/-- Raw score times the field's fixed weight. -/
def weightedFieldScore (search_query query_normalized : String) (f : FieldSpec) : ℚ :=
  rawFieldScore (compareQueryOf search_query query_normalized f).toList
    (fieldCleanOf f).toList f.fuzzy search_query f.value * f.weight

/-- The best-score/matched-field fold of the field loop (empty field values
are skipped; strictly greater scores replace the current best). -/
def bestField (search_query query_normalized : String) :
    List FieldSpec → ℚ × String → ℚ × String
  | [], best => best
  | f :: rest, best =>
    bestField search_query query_normalized rest
      (if f.value = "" then best
       else if best.1 < weightedFieldScore search_query query_normalized f then
        (weightedFieldScore search_query query_normalized f, f.name)
       else best)

/-- One entry of the result list: the property state plus the
`_match_score` / `_matched_field` annotations. -/
structure SearchResult where
  state : CurrentState
  match_score : ℚ
  matched_field : String
deriving DecidableEq, Repr

/-- Python `round(x, 1)` idealised over ℚ: round to the nearest tenth,
ties to even. -/
def roundHalfEvenZ (q : ℚ) : ℤ :=
  if q - q.floor < 1 / 2 then q.floor
  else if (1 : ℚ) / 2 < q - q.floor then q.floor + 1
  else if q.floor % 2 = 0 then q.floor else q.floor + 1

def pyRound1 (x : ℚ) : ℚ := (roundHalfEvenZ (x * 10) : ℚ) / 10

/-- One iteration of the property loop: skip genesis, skip properties whose
state raises, score the fields, and keep the result when the best weighted
score reaches the 35-point threshold. -/
def propertyResult (st : PropertyBlockchain) (search_query query_normalized pk : String) :
    Option SearchResult :=
  if pk = "GENESIS" then none
  else
    match get_property_current_state st pk with
    | .error _ => none
    | .ok s =>
      if 35 ≤ (bestField search_query query_normalized (searchable_fields s) (0, "")).1 then
        some ⟨s,
          pyRound1 (bestField search_query query_normalized (searchable_fields s) (0, "")).1,
          (bestField search_query query_normalized (searchable_fields s) (0, "")).2⟩
      else none

/-- The sort order of `results.sort(key=..., reverse=True)`. -/
def resultLE (a b : SearchResult) : Bool := decide (b.match_score ≤ a.match_score)

/-- `unified_search`. -/
def unified_search (st : PropertyBlockchain) (query : String) : List SearchResult :=
  if pyLower (pyStrip query) = "" then []
  else
    (st.property_index.filterMap (fun p =>
      propertyResult st (pyLower (pyStrip query))
        (removeSpaceDash (pyLower (pyStrip query))) p.1)).mergeSort resultLE

/-- Spec-side description of the field loop: the weighted scores of the
fields with a non-empty value, in field order. -/
def consideredScores (sq qn : String) (fields : List FieldSpec) : List ℚ :=
  (fields.filter (fun f => decide (f.value ≠ ""))).map (weightedFieldScore sq qn)

/-- Spec-side maximum of a list of scores (0 when no field qualifies,
matching the loop's initial `best_score = 0.0`). -/
def maxScore : List ℚ → ℚ
  | [] => 0
  | x :: xs => max x (maxScore xs)

/-- Spec-side best score of a property state: the maximum over its
non-empty fields of raw score times the field's weight. -/
def specBestScore (sq qn : String) (s : CurrentState) : ℚ :=
  maxScore (consideredScores sq qn (searchable_fields s))

theorem maxScore_nonneg : ∀ l : List ℚ, 0 ≤ maxScore l
  | [] => le_refl 0
  | x :: xs => le_trans (maxScore_nonneg xs) (le_max_right x (maxScore xs))

theorem consideredScores_nil (sq qn : String) : consideredScores sq qn [] = [] := rfl

theorem consideredScores_cons (sq qn : String) (f : FieldSpec) (rest : List FieldSpec) :
    consideredScores sq qn (f :: rest) =
      if f.value = "" then consideredScores sq qn rest
      else weightedFieldScore sq qn f :: consideredScores sq qn rest := by
  by_cases hf : f.value = ""
  · have hdec : (decide (f.value ≠ "")) = false := by simp [hf]
    simp only [consideredScores, List.filter_cons, hdec, Bool.false_eq_true, if_false,
      if_pos hf]
  · have hdec : (decide (f.value ≠ "")) = true := by simp [hf]
    simp only [consideredScores, List.filter_cons, hdec, if_true, List.map_cons,
      if_neg hf]

/-- The loop's running-best fold computes the maximum of the considered
weighted scores (joined with the starting accumulator). -/
theorem bestField_fst (sq qn : String) :
    ∀ (fields : List FieldSpec) (b : ℚ × String), 0 ≤ b.1 →
      (bestField sq qn fields b).1 =
        max b.1 (maxScore (consideredScores sq qn fields)) := by
  intro fields
  induction fields with
  | nil =>
    intro b hb
    simp only [bestField, consideredScores_nil, maxScore]
    exact (max_eq_left hb).symm
  | cons f rest ih =>
    intro b hb
    rw [consideredScores_cons]
    by_cases hf : f.value = ""
    · rw [if_pos hf]
      simp only [bestField, if_pos hf]
      exact ih b hb
    · rw [if_neg hf]
      simp only [bestField, if_neg hf, maxScore]
      by_cases hlt : b.1 < weightedFieldScore sq qn f
      · rw [if_pos hlt]
        rw [ih (weightedFieldScore sq qn f, f.name) (le_of_lt (lt_of_le_of_lt hb hlt))]
        have hle : b.1 ≤ max (weightedFieldScore sq qn f)
            (maxScore (consideredScores sq qn rest)) :=
          le_trans (le_of_lt hlt) (le_max_left _ _)
        rw [max_eq_right hle]
      · rw [if_neg hlt]
        rw [ih b hb]
        rw [← max_assoc, max_eq_left (le_of_not_lt hlt)]

/-- The matched-field tag of the fold: either the accumulator is returned
unchanged, or the tag names a non-empty field attaining the returned
score. -/
theorem bestField_attains (sq qn : String) :
    ∀ (fields : List FieldSpec) (b : ℚ × String),
      ((bestField sq qn fields b).1 = b.1 ∧ (bestField sq qn fields b).2 = b.2) ∨
      ∃ f ∈ fields, f.value ≠ "" ∧ (bestField sq qn fields b).2 = f.name ∧
        (bestField sq qn fields b).1 = weightedFieldScore sq qn f := by
  intro fields
  induction fields with
  | nil => intro b; exact Or.inl ⟨rfl, rfl⟩
  | cons f rest ih =>
    intro b
    by_cases hf : f.value = ""
    · rcases ih b with ⟨h1, h2⟩ | ⟨g, hg, hgv, h2, h1⟩
      · exact Or.inl ⟨by simpa [bestField, if_pos hf] using h1,
          by simpa [bestField, if_pos hf] using h2⟩
      · exact Or.inr ⟨g, List.mem_cons_of_mem _ hg, hgv,
          by simpa [bestField, if_pos hf] using h2,
          by simpa [bestField, if_pos hf] using h1⟩
    · by_cases hlt : b.1 < weightedFieldScore sq qn f
      · rcases ih (weightedFieldScore sq qn f, f.name) with ⟨h1, h2⟩ | ⟨g, hg, hgv, h2, h1⟩
        · exact Or.inr ⟨f, List.mem_cons_self f rest, hf,
            by simpa [bestField, if_neg hf, if_pos hlt] using h2,
            by simpa [bestField, if_neg hf, if_pos hlt] using h1⟩
        · exact Or.inr ⟨g, List.mem_cons_of_mem _ hg, hgv,
            by simpa [bestField, if_neg hf, if_pos hlt] using h2,
            by simpa [bestField, if_neg hf, if_pos hlt] using h1⟩
      · rcases ih b with ⟨h1, h2⟩ | ⟨g, hg, hgv, h2, h1⟩
        · exact Or.inl ⟨by simpa [bestField, if_neg hf, if_neg hlt] using h1,
            by simpa [bestField, if_neg hf, if_neg hlt] using h2⟩
        · exact Or.inr ⟨g, List.mem_cons_of_mem _ hg, hgv,
            by simpa [bestField, if_neg hf, if_neg hlt] using h2,
            by simpa [bestField, if_neg hf, if_neg hlt] using h1⟩

theorem isPrefixOf_length_le :
    ∀ (l1 l2 : List Char), l1.isPrefixOf l2 = true → l1.length ≤ l2.length := by
  intro l1
  induction l1 with
  | nil => intro l2 _; simp
  | cons a as ih =>
    intro l2 h
    cases l2 with
    | nil => simp [List.isPrefixOf] at h
    | cons b bs =>
      simp only [List.isPrefixOf, Bool.and_eq_true] at h
      simpa [Nat.succ_le_succ_iff] using ih bs h.2

theorem isPrefixOf_nil_eq (l : List Char) (h : l.isPrefixOf [] = true) : l = [] := by
  cases l with
  | nil => rfl
  | cons a as => simp [List.isPrefixOf] at h

theorem strContains_length_le (t q : List Char) (h : strContains t q = true) :
    q.length ≤ t.length := by
  unfold strContains at h
  rw [List.any_eq_true] at h
  obtain ⟨i, _, hpre⟩ := h
  have := isPrefixOf_length_le _ _ hpre
  simp only [List.length_drop] at this
  omega

/-- Tier analysis of the field-score computation of `unified_search`:
exact equality scores 100; a strict prefix scores `90 + ratio * 10`, always
inside the 85–100 band; a non-prefix substring occurrence scores
`75 + ratio * 15`, always inside the 75–90 band; otherwise the score is the
fuzzy fallback when the field carries the fuzzy flag and 0 when not. -/
theorem rawFieldScore_tiers (cq fc : List Char) (fz : Bool) (sq fv : String) :
    (cq = fc → rawFieldScore cq fc fz sq fv = 100) ∧
    (cq ≠ fc → cq.isPrefixOf fc = true →
      rawFieldScore cq fc fz sq fv =
        90 + ((cq.length : ℚ) / (fc.length : ℚ)) * 10 ∧
      85 ≤ rawFieldScore cq fc fz sq fv ∧ rawFieldScore cq fc fz sq fv ≤ 100) ∧
    (cq ≠ fc → cq.isPrefixOf fc = false → strContains fc cq = true →
      rawFieldScore cq fc fz sq fv =
        75 + ((cq.length : ℚ) / (fc.length : ℚ)) * 15 ∧
      75 ≤ rawFieldScore cq fc fz sq fv ∧ rawFieldScore cq fc fz sq fv ≤ 90) ∧
    (cq ≠ fc → cq.isPrefixOf fc = false → strContains fc cq = false →
      rawFieldScore cq fc fz sq fv =
        if fz then calculate_fuzzy_score sq fv else 0) := by
  refine ⟨?_, ?_, ?_, ?_⟩
  · intro h; rw [rawFieldScore, if_pos h]
  · intro hne hpre
    have hfc : fc ≠ [] := by
      intro h0
      exact hne (by rw [h0] at hpre ⊢; exact isPrefixOf_nil_eq cq hpre)
    have hpos : (0 : ℚ) < (fc.length : ℚ) := by
      have : 0 < fc.length := List.length_pos.mpr hfc
      exact_mod_cast this
    have hratio0 : (0 : ℚ) ≤ (cq.length : ℚ) / (fc.length : ℚ) :=
      div_nonneg (by positivity) (le_of_lt hpos)
    have hratio1 : (cq.length : ℚ) / (fc.length : ℚ) ≤ 1 := by
      rw [div_le_one hpos]
      exact_mod_cast isPrefixOf_length_le cq fc hpre
    have heq : rawFieldScore cq fc fz sq fv =
        90 + ((cq.length : ℚ) / (fc.length : ℚ)) * 10 := by
      rw [rawFieldScore, if_neg hne, if_pos hpre]
    refine ⟨heq, ?_, ?_⟩
    · rw [heq]; nlinarith
    · rw [heq]; nlinarith
  · intro hne hpre hcon
    have hfc : fc ≠ [] := by
      intro h0
      rw [h0] at hcon
      have : cq.isPrefixOf ([] : List Char) = true := by
        unfold strContains at hcon
        rw [List.any_eq_true] at hcon
        obtain ⟨i, _, hp⟩ := hcon
        simpa using hp
      exact hne (by rw [h0]; exact isPrefixOf_nil_eq cq this)
    have hpos : (0 : ℚ) < (fc.length : ℚ) := by
      have : 0 < fc.length := List.length_pos.mpr hfc
      exact_mod_cast this
    have hratio0 : (0 : ℚ) ≤ (cq.length : ℚ) / (fc.length : ℚ) :=
      div_nonneg (by positivity) (le_of_lt hpos)
    have hratio1 : (cq.length : ℚ) / (fc.length : ℚ) ≤ 1 := by
      rw [div_le_one hpos]
      exact_mod_cast strContains_length_le fc cq hcon
    have heq : rawFieldScore cq fc fz sq fv =
        75 + ((cq.length : ℚ) / (fc.length : ℚ)) * 15 := by
      rw [rawFieldScore, if_neg hne, hpre]
      rw [if_neg (by simp), if_pos hcon]
    refine ⟨heq, ?_, ?_⟩
    · rw [heq]; nlinarith
    · rw [heq]; nlinarith
  · intro hne hpre hcon
    rw [rawFieldScore, if_neg hne, hpre]
    rw [if_neg (by simp), hcon]
    rw [if_neg (by simp)]

/-- The fuzzy fallback flag is set exactly on the owner field. -/
theorem fuzzy_only_owner (s : CurrentState) :
    ∀ f ∈ searchable_fields s, (f.fuzzy = true ↔ f.name = "owner") := by
  intro f hf
  simp only [searchable_fields, List.mem_cons, List.not_mem_nil, or_false] at hf
  rcases hf with h | h | h | h | h | h | h | h | h | h | h | h <;> subst h <;> simp

/-- Characterization of one iteration of the property loop. -/
theorem propertyResult_eq_some (st : PropertyBlockchain) (sq qn pk : String)
    (r : SearchResult) :
    propertyResult st sq qn pk = some r ↔
      pk ≠ "GENESIS" ∧ get_property_current_state st pk = .ok r.state ∧
      35 ≤ specBestScore sq qn r.state ∧
      r.match_score = pyRound1 (specBestScore sq qn r.state) ∧
      r.matched_field = (bestField sq qn (searchable_fields r.state) (0, "")).2 := by
  have hbf : ∀ s : CurrentState,
      (bestField sq qn (searchable_fields s) (0, "")).1 = specBestScore sq qn s := by
    intro s
    rw [bestField_fst sq qn (searchable_fields s) (0, "") (le_refl 0)]
    exact max_eq_right (maxScore_nonneg _)
  constructor
  · intro h
    by_cases hg : pk = "GENESIS"
    · simp [propertyResult, hg] at h
    · simp only [propertyResult, if_neg hg] at h
      cases hst : get_property_current_state st pk with
      | error e => simp only [hst] at h; exact absurd h (by simp)
      | ok s =>
        simp only [hst] at h
        by_cases hthr : 35 ≤ (bestField sq qn (searchable_fields s) (0, "")).1
        · rw [if_pos hthr] at h
          have hr := (Option.some.inj h).symm
          subst hr
          rw [hbf s] at hthr
          refine ⟨hg, rfl, hthr, ?_, rfl⟩
          show pyRound1 (bestField sq qn (searchable_fields s) (0, "")).1 =
            pyRound1 (specBestScore sq qn s)
          rw [hbf s]
        · rw [if_neg hthr] at h; exact absurd h (by simp)
  · rintro ⟨hg, hok, hthr, hms, hmf⟩
    cases r with
    | mk rs rm rf =>
      have hok' : get_property_current_state st pk = .ok rs := hok
      have hthr' : 35 ≤ specBestScore sq qn rs := hthr
      have hms' : rm = pyRound1 (specBestScore sq qn rs) := hms
      have hmf' : rf = (bestField sq qn (searchable_fields rs) (0, "")).2 := hmf
      simp only [propertyResult, if_neg hg, hok']
      rw [if_pos (show 35 ≤ (bestField sq qn (searchable_fields rs) (0, "")).1 from by
        rw [hbf rs]; exact hthr')]
      rw [show rm = pyRound1 (bestField sq qn (searchable_fields rs) (0, "")).1 from by
        rw [hbf rs]; exact hms']
      rw [show rf = (bestField sq qn (searchable_fields rs) (0, "")).2 from hmf']

/-- Membership in the search results. -/
theorem mem_unified_search (st : PropertyBlockchain) (query : String)
    (r : SearchResult) :
    r ∈ unified_search st query ↔
      pyLower (pyStrip query) ≠ "" ∧ ∃ p ∈ st.property_index,
        propertyResult st (pyLower (pyStrip query))
          (removeSpaceDash (pyLower (pyStrip query))) p.1 = some r := by
  unfold unified_search
  by_cases hq : pyLower (pyStrip query) = ""
  · rw [if_pos hq]
    simp [hq]
  · rw [if_neg hq]
    rw [(List.mergeSort_perm _ resultLE).mem_iff, List.mem_filterMap]
    constructor
    · rintro ⟨p, hp, hres⟩
      exact ⟨hq, p, hp, hres⟩
    · rintro ⟨_, p, hp, hres⟩
      exact ⟨p, hp, hres⟩

theorem resultLE_trans (a b c : SearchResult) (h1 : resultLE a b = true)
    (h2 : resultLE b c = true) : resultLE a c = true := by
  simp only [resultLE, decide_eq_true_eq] at h1 h2 ⊢
  exact le_trans h2 h1

theorem resultLE_total (a b : SearchResult) : (resultLE a b || resultLE b a) = true := by
  simp only [resultLE, Bool.or_eq_true, decide_eq_true_eq]
  exact (le_total b.match_score a.match_score)

/-- The result list is sorted in descending match-score order. -/
theorem unified_search_sorted (st : PropertyBlockchain) (query : String) :
    List.Pairwise (fun a b : SearchResult => b.match_score ≤ a.match_score)
      (unified_search st query) := by
  unfold unified_search
  by_cases hq : pyLower (pyStrip query) = ""
  · rw [if_pos hq]; exact List.Pairwise.nil
  · rw [if_neg hq]
    have h := List.sorted_mergeSort resultLE_trans resultLE_total
      (st.property_index.filterMap (fun p =>
        propertyResult st (pyLower (pyStrip query))
          (removeSpaceDash (pyLower (pyStrip query))) p.1))
    exact h.imp (fun hab => by simpa [resultLE] using hab)

/-- C7: `unified_search` returns exactly the non-genesis indexed properties
(with a readable current state) whose best weighted field score reaches the
35-point threshold, sorted descending by the reported match score (the best
score rounded to one decimal); the best score is the maximum over the
non-empty fields of raw score times the field's fixed weight, tagged with a
field attaining it; a field's raw score is 100 on exact equality, in the
85–100 band for a prefix match scaled by the length ratio, in the 75–90
band for substring containment scaled similarly, and otherwise the fuzzy
fallback — which is enabled exactly on the owner field. -/
theorem c7_unified_search (st : PropertyBlockchain) (query : String) :
    List.Pairwise (fun a b : SearchResult => b.match_score ≤ a.match_score)
      (unified_search st query) ∧
    (∀ r : SearchResult, r ∈ unified_search st query ↔
      (pyLower (pyStrip query) ≠ "" ∧ ∃ p ∈ st.property_index, p.1 ≠ "GENESIS" ∧
        get_property_current_state st p.1 = .ok r.state ∧
        35 ≤ specBestScore (pyLower (pyStrip query))
          (removeSpaceDash (pyLower (pyStrip query))) r.state ∧
        r.match_score = pyRound1 (specBestScore (pyLower (pyStrip query))
          (removeSpaceDash (pyLower (pyStrip query))) r.state) ∧
        r.matched_field = (bestField (pyLower (pyStrip query))
          (removeSpaceDash (pyLower (pyStrip query)))
          (searchable_fields r.state) (0, "")).2)) ∧
    (∀ s : CurrentState,
      0 < specBestScore (pyLower (pyStrip query))
        (removeSpaceDash (pyLower (pyStrip query))) s →
      ∃ f ∈ searchable_fields s, f.value ≠ "" ∧
        f.name = (bestField (pyLower (pyStrip query))
          (removeSpaceDash (pyLower (pyStrip query)))
          (searchable_fields s) (0, "")).2 ∧
        weightedFieldScore (pyLower (pyStrip query))
          (removeSpaceDash (pyLower (pyStrip query))) f =
          specBestScore (pyLower (pyStrip query))
            (removeSpaceDash (pyLower (pyStrip query))) s) ∧
    (∀ (cq fc : List Char) (fz : Bool) (sq fv : String),
      (cq = fc → rawFieldScore cq fc fz sq fv = 100) ∧
      (cq ≠ fc → cq.isPrefixOf fc = true →
        rawFieldScore cq fc fz sq fv =
          90 + ((cq.length : ℚ) / (fc.length : ℚ)) * 10 ∧
        85 ≤ rawFieldScore cq fc fz sq fv ∧ rawFieldScore cq fc fz sq fv ≤ 100) ∧
      (cq ≠ fc → cq.isPrefixOf fc = false → strContains fc cq = true →
        rawFieldScore cq fc fz sq fv =
          75 + ((cq.length : ℚ) / (fc.length : ℚ)) * 15 ∧
        75 ≤ rawFieldScore cq fc fz sq fv ∧ rawFieldScore cq fc fz sq fv ≤ 90) ∧
      (cq ≠ fc → cq.isPrefixOf fc = false → strContains fc cq = false →
        rawFieldScore cq fc fz sq fv =
          if fz then calculate_fuzzy_score sq fv else 0)) ∧
    (∀ s : CurrentState, ∀ f ∈ searchable_fields s,
      (f.fuzzy = true ↔ f.name = "owner")) := by
  refine ⟨unified_search_sorted st query, ?_, ?_,
    fun cq fc fz sq fv => rawFieldScore_tiers cq fc fz sq fv, fuzzy_only_owner⟩
  · intro r
    rw [mem_unified_search st query r]
    constructor
    · rintro ⟨hq, p, hp, hres⟩
      rw [propertyResult_eq_some] at hres
      exact ⟨hq, p, hp, hres⟩
    · rintro ⟨hq, p, hp, hres⟩
      exact ⟨hq, p, hp, (propertyResult_eq_some st _ _ p.1 r).mpr hres⟩
  · intro s hpos
    have hbf : (bestField (pyLower (pyStrip query))
        (removeSpaceDash (pyLower (pyStrip query))) (searchable_fields s) (0, "")).1 =
        specBestScore (pyLower (pyStrip query))
          (removeSpaceDash (pyLower (pyStrip query))) s := by
      rw [bestField_fst _ _ (searchable_fields s) (0, "") (le_refl 0)]
      exact max_eq_right (maxScore_nonneg _)
    rcases bestField_attains (pyLower (pyStrip query))
        (removeSpaceDash (pyLower (pyStrip query))) (searchable_fields s) (0, "") with
      ⟨h1, _⟩ | ⟨f, hf, hfv, h2, h1⟩
    · rw [hbf] at h1
      exact absurd (h1 ▸ hpos) (lt_irrefl 0)
    · exact ⟨f, hf, hfv, h2.symm, by rw [← hbf, ← h1]⟩

/-- The current state of property `P1` in the two-block witness ledger,
written out field by field. -/
def wCS7 : CurrentState :=
  ⟨"P1", "Alice", "CUST-A", "123456789012", "ABCDE1234F", "12 Main St",
   "560001", 1000000, "24/1", "", "", "", "", "", "", "", "", "t1", "t1", 0⟩

theorem wCS7_best : specBestScore "ali" "ali" wCS7 = 96 ∧
    bestField "ali" "ali" (searchable_fields wCS7) (0, "") = (96, "owner") := by
  have hlen1 : ("ali".toList.length : ℚ) = 3 := by norm_num
  have hlen2 : ((pyLower wCS7.owner).length : ℚ) = 5 := by
    norm_num [show (pyLower wCS7.owner).length = 5 from by decide]
  constructor
  · norm_num +decide [specBestScore, consideredScores, searchable_fields,
      weightedFieldScore, rawFieldScore, compareQueryOf, fieldCleanOf, maxScore,
      max_def, hlen1, hlen2]
  · norm_num +decide [bestField, searchable_fields, weightedFieldScore,
      rawFieldScore, compareQueryOf, fieldCleanOf, hlen1, hlen2]

theorem c7_unified_search_witness :
    List.Pairwise (fun a b : SearchResult => b.match_score ≤ a.match_score)
      (unified_search wChain1 "ali") ∧
    (⟨wCS7, 96, "owner"⟩ : SearchResult) ∈ unified_search wChain1 "ali" ∧
    (∃ f ∈ searchable_fields wCS7, f.value ≠ "" ∧
      f.name = (bestField (pyLower (pyStrip "ali"))
        (removeSpaceDash (pyLower (pyStrip "ali")))
        (searchable_fields wCS7) (0, "")).2 ∧
      weightedFieldScore (pyLower (pyStrip "ali"))
        (removeSpaceDash (pyLower (pyStrip "ali"))) f =
        specBestScore (pyLower (pyStrip "ali"))
          (removeSpaceDash (pyLower (pyStrip "ali"))) wCS7) ∧
    (85 ≤ rawFieldScore "ali".toList "alice".toList true "ali" "Alice" ∧
      rawFieldScore "ali".toList "alice".toList true "ali" "Alice" ≤ 100) := by
  have h := c7_unified_search wChain1 "ali"
  have hq : pyLower (pyStrip "ali") = "ali" := by decide
  have hqn : removeSpaceDash (pyLower (pyStrip "ali")) = "ali" := by decide
  have hspec : specBestScore (pyLower (pyStrip "ali"))
      (removeSpaceDash (pyLower (pyStrip "ali"))) wCS7 = 96 := by
    rw [hqn, hq]; exact wCS7_best.1
  have hpair : bestField (pyLower (pyStrip "ali"))
      (removeSpaceDash (pyLower (pyStrip "ali")))
      (searchable_fields wCS7) (0, "") = (96, "owner") := by
    rw [hqn, hq]; exact wCS7_best.2
  have hround : pyRound1 (96 : ℚ) = 96 := by
    have hf : Rat.floor (960 : ℚ) = 960 := by decide
    norm_num [pyRound1, roundHalfEvenZ, show (96 : ℚ) * 10 = 960 from by norm_num, hf]
  refine ⟨h.1, ?_, ?_, ?_⟩
  · exact (h.2.1 ⟨wCS7, 96, "owner"⟩).mpr
      ⟨by decide, ("P1", [1]), by decide, by decide, rfl,
       by rw [show (⟨wCS7, 96, "owner"⟩ : SearchResult).state = wCS7 from rfl, hspec]
          norm_num,
       by rw [show (⟨wCS7, 96, "owner"⟩ : SearchResult).state = wCS7 from rfl, hspec]
          exact hround.symm,
       by rw [show (⟨wCS7, 96, "owner"⟩ : SearchResult).state = wCS7 from rfl, hpair]⟩
  · exact h.2.2.1 wCS7 (by rw [hspec]; norm_num)
  · exact ((h.2.2.2.1 "ali".toList "alice".toList true "ali" "Alice").2.1
      (by decide) (by decide)).2

end PawProp
